import Mathlib

/-!
Shallow embedding of the zapai-dvm ingress/processing pipeline.

The embedded code is the zap-enabled bot (src/bot.js, second revision,
lines 666-1651 of the concatenated file), the conversation database
(src/database.js lines 1-486) and the gemini client
(src/gemini.js second revision).  The LMDB store is modelled as an
association list kept sorted in byte-lexicographic key order, matching
LMDB's ordered iteration.  The zap ledger (zapdb.js) is not under src/
and is modelled from the spec where needed.
-/

namespace ZapAI

/-! ## JS string helpers (database.js lines 17-42) -/

/-- Whitespace as matched by the JS regexes and trim in database.js. -/
def isWsChar (c : Char) : Bool :=
  c = ' ' || c = '\t' || c = '\n' || c = '\r'

/-- Model of JS String.prototype.trim on a character list. -/
def trimChars (l : List Char) : List Char :=
  ((l.dropWhile isWsChar).reverse.dropWhile isWsChar).reverse

/-- Model of the global regex replace of each whitespace run by a single
dash used by sanitizeSessionId (database.js line 32).  The Bool argument
records whether the previous character was part of a whitespace run. -/
def collapseWs : Bool → List Char → List Char
  | _, [] => []
  | prevWs, c :: rest =>
    if isWsChar c then
      if prevWs then collapseWs true rest else '-' :: collapseWs true rest
    else c :: collapseWs false rest

/-- Printable ASCII range kept by sanitizeSessionId (database.js line 33). -/
def isPrintableChar (c : Char) : Bool :=
  0x21 ≤ c.toNat && c.toNat ≤ 0x7E

/-- database.js sanitizeSessionId (lines 23-35): stringify (here: Option,
none standing for null/undefined), trim, collapse whitespace runs to a
dash, strip non-printable characters, cap at 120 characters. -/
def sanitizeSessionId (s : Option String) : String :=
  match s with
  | none => ""
  | some str =>
    let t := trimChars str.data
    if t = [] then ""
    else String.mk (((collapseWs false t).filter isPrintableChar).take 120)

/-- database.js previewContent (lines 37-42): cap a string at 180 chars. -/
def previewContent (content : String) : String :=
  String.mk (content.data.take 180)

/-! ## Decimal digits (JS Number.prototype.toString for naturals) -/

def digitChar (d : Nat) : Char := Char.ofNat (48 + d)

/-- Fuel-driven decimal digit expansion; the fuel is a strict upper bound
on the value, so natDigits below always has enough. -/
def digitsAux : Nat → Nat → List Char
  | 0, _ => []
  | fuel + 1, n =>
    if n < 10 then [digitChar n]
    else digitsAux fuel (n / 10) ++ [digitChar (n % 10)]

/-- Decimal digit list of a natural number. -/
def natDigits (n : Nat) : List Char := digitsAux (n + 1) n

/-- Decimal representation of a natural number as a string. -/
def natRepr (n : Nat) : String := String.mk (natDigits n)

/-- database.js padTimestamp (lines 17-21): positive finite timestamps are
left-padded with zeros to width 15; other values fall back to Date.now()
(passed in as `now`). -/
def padTimestampL (now t : Nat) : List Char :=
  let safe := if 0 < t then t else now
  let ds := natDigits safe
  List.replicate (15 - ds.length) '0' ++ ds

def padTimestamp (now t : Nat) : String := String.mk (padTimestampL now t)

/-! ## JS numbers (only what the zap path needs) -/

/-- A JS number as it occurs on the zap-amount path: an integer or NaN. -/
inductive JsNum where
  | num (n : Int)
  | nan
deriving DecidableEq, Repr

/-- Math.floor(x / 1000) on a JS number; NaN propagates. -/
def floorDiv1000 : JsNum → JsNum
  | .num n => .num (Int.fdiv n 1000)
  | .nan => .nan

def isDigitChar (c : Char) : Bool := 48 ≤ c.toNat && c.toNat ≤ 57

def digitVal (c : Char) : Nat := c.toNat - 48

def digitsVal (l : List Char) : Nat :=
  l.foldl (fun a c => a * 10 + digitVal c) 0

/-- JS parseInt in base 10 on the decimal strings that occur in zap amount
tags: skip leading whitespace, optional sign, longest digit run; NaN when
no digit is found.  (The hex autodetection of parseInt is not reachable
with decimal amount tags and is not modelled.) -/
def jsParseInt (s : String) : JsNum :=
  let l := s.data.dropWhile isWsChar
  match l with
  | '-' :: rest =>
    let ds := rest.takeWhile isDigitChar
    if ds = [] then .nan else .num (-(digitsVal ds : Int))
  | '+' :: rest =>
    let ds := rest.takeWhile isDigitChar
    if ds = [] then .nan else .num (digitsVal ds)
  | _ =>
    let ds := l.takeWhile isDigitChar
    if ds = [] then .nan else .num (digitsVal ds)

/-- String interpolation of a JS number. -/
def jsNumRepr : JsNum → String
  | .num n => if n < 0 then "-" ++ natRepr n.natAbs else natRepr n.natAbs
  | .nan => "NaN"

/-- JS falsy-or for strings: `a || b`. -/
def jsOrS (a b : String) : String := if a = "" then b else a

/-- `o || b` where o is a possibly-null string. -/
def jsOrOptS (o : Option String) (b : String) : String := jsOrS (o.getD "") b

/-- A possibly-null string is truthy iff present and nonempty. -/
def truthyS (o : Option String) : Bool :=
  match o with
  | some s => s ≠ ""
  | none => false

/-! ## Byte-lexicographic key order (model of the ordered LMDB keyspace) -/

/-- Byte-wise lexicographic strict order on character lists; this is the
iteration order of the LMDB store (an external collaborator: an ordered
key-value store with range scans). -/
def lexLtB : List Char → List Char → Bool
  | [], [] => false
  | [], _ :: _ => true
  | _ :: _, [] => false
  | a :: as, b :: bs => if a = b then lexLtB as bs else decide (a.toNat < b.toNat)

def strLtB (s t : String) : Bool := lexLtB s.data t.data

/-! ## Conversation store records (database.js) -/

/-- The persisted message record (database.js lines 172-184).  The unused
`metadata.extraMetadata` passthrough field is never read by any embedded
operation and is omitted. -/
structure MessageRecord where
  pubkey : String
  sessionId : String
  message : String
  isFromBot : Bool
  timestamp : Nat
  messageId : String
  messageType : String
  replyTo : Option String
  eventId : Option String
  eventKind : Option Nat
deriving DecidableEq, Repr

/-- The session record (database.js lines 112-123 and 222-234). -/
structure SessionRecord where
  pubkey : String
  sessionId : String
  createdAt : Nat
  lastMessageAt : Nat
  messageCount : Nat
  origin : Option String
  label : Option String
  lastMessagePreview : Option String
  lastDirection : Option String
  lastEventId : Option String
  lastTouchedAt : Option Nat
deriving DecidableEq, Repr

/-- The dedup hash pointer (database.js line 203). -/
structure HashPointer where
  messageKey : String
  timestamp : Nat
deriving DecidableEq, Repr

inductive DbValue where
  | message (m : MessageRecord)
  | session (s : SessionRecord)
  | hash (h : HashPointer)
deriving DecidableEq, Repr

/-- The LMDB keyspace: an association list kept sorted in byte order. -/
abbrev Store := List (String × DbValue)

def dbGet (store : Store) (k : String) : Option DbValue :=
  match store.find? (fun kv => decide (kv.1 = k)) with
  | some kv => some kv.2
  | none => none

/-- Ordered insert / replace, keeping the keyspace sorted the way the
LMDB B-tree does. -/
def dbPut : Store → String → DbValue → Store
  | [], k, v => [(k, v)]
  | (k', v') :: rest, k, v =>
    if strLtB k k' then (k, v) :: (k', v') :: rest
    else if strLtB k' k then (k', v') :: dbPut rest k v
    else (k, v) :: rest

/-! ## Keys (database.js lines 44-57) -/

def buildSessionKey (pubkey sessionId : String) : String :=
  "session:" ++ pubkey ++ ":" ++ sessionId

def buildMessageKey (now : Nat) (pubkey sessionId : String) (timestamp : Nat)
    (direction : String) : String :=
  "message:" ++ pubkey ++ ":" ++ sessionId ++ ":" ++ padTimestamp now timestamp
    ++ ":" ++ direction

/-- database.js buildHashKey (lines 52-57): the event-id key when a truthy
event id is given, otherwise the composite key. -/
def buildHashKey (now : Nat) (pubkey sessionId : String) (timestamp : Nat)
    (direction : String) (eventId : Option String) : String :=
  if truthyS eventId then "hash:event:" ++ eventId.getD ""
  else "hash:" ++ pubkey ++ ":" ++ sessionId ++ ":" ++ padTimestamp now timestamp
    ++ ":" ++ direction

/-- database.js _normalizePubkey (lines 90-95). -/
def normalizePubkey (p : String) : String := String.mk (trimChars p.data)

/-! ## ensureSession (database.js lines 97-149) -/

/-- The metadata object ensureSession receives. -/
structure EnsureMeta where
  source : Option String
  label : Option String
  touch : Bool
  fallbackId : Option String
deriving DecidableEq, Repr

/-- The session id resolution of ensureSession (database.js line 107):
sanitized requested id, else the fallback, else `session-{now}-{random8}`. -/
def resolveSessionId (now : Nat) (rand : String) (md : EnsureMeta)
    (requestedSessionId : Option String) : String :=
  jsOrS (sanitizeSessionId requestedSessionId)
    (jsOrOptS md.fallbackId ("session-" ++ natRepr now ++ "-" ++ rand))

/-- The fresh session record of ensureSession (database.js lines 112-123). -/
def newSessionRecord (now : Nat) (npk sid : String) (md : EnsureMeta) : SessionRecord :=
  { pubkey := npk
    sessionId := sid
    createdAt := now
    lastMessageAt := now
    messageCount := 0
    origin := if truthyS md.source then md.source else none
    label := if truthyS md.label then md.label else none
    lastMessagePreview := none
    lastDirection := none
    lastEventId := none
    lastTouchedAt := none }

/-- Origin upgrade of an existing session (database.js lines 131-134). -/
def sessionUpd1 (md : EnsureMeta) (s : SessionRecord) : SessionRecord :=
  if truthyS md.source ∧ ¬ truthyS s.origin then { s with origin := md.source } else s

/-- Label upgrade of an existing session (database.js lines 135-138). -/
def sessionUpd2 (md : EnsureMeta) (s1 : SessionRecord) : SessionRecord :=
  if truthyS md.label ∧ s1.label ≠ md.label then { s1 with label := md.label } else s1

/-- Touch timestamp of an existing session (database.js lines 139-142). -/
def sessionUpd3 (now : Nat) (md : EnsureMeta) (s2 : SessionRecord) : SessionRecord :=
  if md.touch then { s2 with lastTouchedAt := some now } else s2

/-- The idempotent metadata upgrade of an existing session (database.js
lines 130-146): origin when absent, label when changed, lastTouchedAt
unless touch is disabled; written only when something changed. -/
def sessionUpdateStep (now : Nat) (store : Store) (npk sid : String)
    (md : EnsureMeta) (s : SessionRecord) : Store :=
  if (truthyS md.source ∧ ¬ truthyS s.origin)
      ∨ (truthyS md.label ∧ (sessionUpd1 md s).label ≠ md.label) ∨ md.touch
  then dbPut store (buildSessionKey npk sid)
    (.session (sessionUpd3 now md (sessionUpd2 md (sessionUpd1 md s))))
  else store

/-- database.js ensureSession.  `now` is Date.now() and `rand` the first 8
characters of the random UUID used when a session id must be synthesized.
Returns the resolved session id and whether a new session was created.
(A session key never stores another record kind in stores reachable from
the code; that dead arm leaves the store untouched.) -/
def ensureSession (now : Nat) (rand : String) (store : Store) (pubkey : String)
    (requestedSessionId : Option String) (md : EnsureMeta) :
    Except String (Store × String × Bool) :=
  if normalizePubkey pubkey = "" then .error "pubkey is required to create a session"
  else
    match dbGet store (buildSessionKey (normalizePubkey pubkey)
        (resolveSessionId now rand md requestedSessionId)) with
    | some (.session s) =>
      .ok (sessionUpdateStep now store (normalizePubkey pubkey)
            (resolveSessionId now rand md requestedSessionId) md s,
           resolveSessionId now rand md requestedSessionId, false)
    | some _ => .ok (store, resolveSessionId now rand md requestedSessionId, false)
    | none =>
      .ok (dbPut store (buildSessionKey (normalizePubkey pubkey)
             (resolveSessionId now rand md requestedSessionId))
             (.session (newSessionRecord now (normalizePubkey pubkey)
               (resolveSessionId now rand md requestedSessionId) md)),
           resolveSessionId now rand md requestedSessionId, true)

/-! ## saveMessage (database.js lines 151-246) -/

/-- The metadata object saveMessage receives from bot.js. -/
structure SaveMeta where
  timestamp : Option Nat
  sessionId : Option String
  eventId : Option String
  eventKind : Option Nat
  messageType : Option String
  replyTo : Option String
  messageSource : Option String
  sessionLabel : Option String
deriving DecidableEq, Repr

/-- Empty metadata (a JS call with `{}` or omitted fields). -/
def SaveMeta.empty : SaveMeta :=
  ⟨none, none, none, none, none, none, none, none⟩

structure SaveResult where
  messageId : String
  sessionId : String
  timestamp : Nat
  key : Option String
  duplicate : Bool
deriving DecidableEq, Repr

/-- The session `source` derived in the saveMessage call to ensureSession
(database.js lines 163-169): messageSource, else dm/public/kind-k by event
kind (0 and absent are falsy and give null). -/
def derivedSource (md : SaveMeta) : Option String :=
  let fromKind : Option String :=
    match md.eventKind with
    | some 4 => some "dm"
    | some 1 => some "public"
    | some 0 => none
    | some k => some ("kind-" ++ natRepr k)
    | none => none
  if truthyS md.messageSource then md.messageSource else fromKind

/-- The session counter/preview bump of _updateSessionAfterMessage
(database.js lines 239-245). -/
def bumpSessionRecord (s : SessionRecord) (m : MessageRecord) : SessionRecord :=
  { s with
    messageCount := s.messageCount + 1
    lastMessageAt := m.timestamp
    lastMessagePreview := some (previewContent m.message)
    lastDirection := some (if m.isFromBot then "bot" else "user")
    lastEventId := if truthyS m.eventId then m.eventId
                   else if truthyS s.lastEventId then s.lastEventId else none }

/-- The fresh session _updateSessionAfterMessage creates when none exists
(database.js lines 222-234). -/
def freshSessionFromMessage (pubkey sessionId : String) (m : MessageRecord) :
    SessionRecord :=
  { pubkey := pubkey
    sessionId := sessionId
    createdAt := m.timestamp
    lastMessageAt := m.timestamp
    messageCount := 1
    origin :=
      match m.eventKind with
      | some 4 => some "dm"
      | some 1 => some "public"
      | some 0 => none
      | some k => some ("kind-" ++ natRepr k)
      | none => none
    label := none
    lastMessagePreview := some (previewContent m.message)
    lastDirection := some (if m.isFromBot then "bot" else "user")
    lastEventId := if truthyS m.eventId then m.eventId else none
    lastTouchedAt := none }

/-- database.js _updateSessionAfterMessage (lines 217-246). -/
def updateSessionAfterMessage (store : Store) (pubkey sessionId : String)
    (m : MessageRecord) : Store :=
  match dbGet store (buildSessionKey pubkey sessionId) with
  | some (.session s) =>
    dbPut store (buildSessionKey pubkey sessionId) (.session (bumpSessionRecord s m))
  | some _ => store
  | none =>
    dbPut store (buildSessionKey pubkey sessionId)
      (.session (freshSessionFromMessage pubkey sessionId m))

/-- The message id of a save (database.js line 171): the truthy event id,
else the composite pubkey:session:timestamp:direction. -/
def saveMessageId (npk sid : String) (ts : Nat) (direction : String)
    (md : SaveMeta) : String :=
  jsOrOptS md.eventId (npk ++ ":" ++ sid ++ ":" ++ natRepr ts ++ ":" ++ direction)

/-- The message record a save writes (database.js lines 172-184). -/
def mkMessageRecord (npk sid message : String) (isFromBot : Bool) (ts : Nat)
    (direction : String) (md : SaveMeta) : MessageRecord :=
  { pubkey := npk
    sessionId := sid
    message := message
    isFromBot := isFromBot
    timestamp := ts
    messageId := saveMessageId npk sid ts direction md
    messageType := jsOrOptS md.messageType (if isFromBot then "response" else "question")
    replyTo := if truthyS md.replyTo then md.replyTo else none
    eventId := if truthyS md.eventId then md.eventId else none
    eventKind :=
      match md.eventKind with
      | some 0 => none
      | x => x }

/-- The write phase of a non-duplicate save (database.js lines 202-205):
message record, single hash pointer, session update. -/
def saveWrites (now : Nat) (store1 : Store) (npk sid message : String)
    (isFromBot : Bool) (ts : Nat) (direction : String) (md : SaveMeta) : Store :=
  updateSessionAfterMessage
    (dbPut (dbPut store1 (buildMessageKey now npk sid ts direction)
        (.message (mkMessageRecord npk sid message isFromBot ts direction md)))
      (buildHashKey now npk sid ts direction md.eventId)
      (.hash ⟨buildMessageKey now npk sid ts direction, ts⟩))
    npk sid (mkMessageRecord npk sid message isFromBot ts direction md)

/-- database.js saveMessage (lines 151-215): resolve the session, compute
the message and (single) dedup hash key, bail out with duplicate=true when
the hash key exists, otherwise write the record, the hash pointer and the
session update. -/
def saveMessage (now : Nat) (rand : String) (store : Store) (pubkey message : String)
    (isFromBot : Bool) (md : SaveMeta) : Except String (Store × SaveResult) :=
  if normalizePubkey pubkey = "" then .error "pubkey is required to save a message"
  else
    match ensureSession now rand store (normalizePubkey pubkey) md.sessionId
        ⟨derivedSource md, md.sessionLabel, false, none⟩ with
    | .error e => .error e
    | .ok (store1, sessionId, _) =>
      match dbGet store1 (buildHashKey now (normalizePubkey pubkey) sessionId
          (md.timestamp.getD now) (if isFromBot then "bot" else "user") md.eventId) with
      | some _ =>
        .ok (store1,
             ⟨saveMessageId (normalizePubkey pubkey) sessionId (md.timestamp.getD now)
                (if isFromBot then "bot" else "user") md,
              sessionId, md.timestamp.getD now, none, true⟩)
      | none =>
        .ok (saveWrites now store1 (normalizePubkey pubkey) sessionId message isFromBot
               (md.timestamp.getD now) (if isFromBot then "bot" else "user") md,
             ⟨saveMessageId (normalizePubkey pubkey) sessionId (md.timestamp.getD now)
                (if isFromBot then "bot" else "user") md,
              sessionId, md.timestamp.getD now,
              some (buildMessageKey now (normalizePubkey pubkey) sessionId
                (md.timestamp.getD now) (if isFromBot then "bot" else "user")),
              false⟩)

/-! ## History retrieval (database.js lines 248-340) -/

/-- database.js _formatMessage (lines 248-265). -/
structure FormattedMessage where
  pubkey : String
  message : String
  isFromBot : Bool
  timestamp : Nat
  messageId : Option String
  messageType : String
  replyTo : Option String
  eventId : Option String
  eventKind : Option Nat
  sessionId : Option String
deriving DecidableEq, Repr

def formatMessage (m : MessageRecord) : FormattedMessage :=
  { pubkey := m.pubkey
    message := m.message
    isFromBot := m.isFromBot
    timestamp := m.timestamp
    messageId := if m.messageId = "" then none else some m.messageId
    messageType := jsOrS m.messageType (if m.isFromBot then "response" else "question")
    replyTo := m.replyTo
    eventId := m.eventId
    eventKind := m.eventKind
    sessionId := if m.sessionId = "" then none else some m.sessionId }

/-- The `if (!value?.message) continue` filter of the range loops. -/
def isValidMsgEntry : String × DbValue → Bool
  | (_, .message m) => m.message ≠ ""
  | _ => false

/-- The entries the LMDB getRange call yields for `start`/`end`, in
ascending key order (the store is kept sorted). -/
def rangeEntries (store : Store) (lo hi : String) : List (String × DbValue) :=
  store.filter (fun kv => !strLtB kv.1 lo && strLtB kv.1 hi)

/-- The body of the range loops in getConversation / getConversationBySession:
skip records without a message, format, stop once `limit` messages were
collected (the check runs after the push). -/
def collectHistory (limit : Nat) : Nat → List (String × DbValue) → List FormattedMessage
  | _, [] => []
  | cnt, e :: rest =>
    match e.2 with
    | .message m =>
      if m.message ≠ "" then
        if limit ≤ cnt + 1 then [formatMessage m]
        else formatMessage m :: collectHistory limit (cnt + 1) rest
      else collectHistory limit cnt rest
    | _ => collectHistory limit cnt rest

/-- The exclusive upper end `prefix + '\xFF'` of the range scans. -/
def rangeEnd (pfx : String) : String := pfx ++ String.mk [Char.ofNat 255]

def DEFAULT_HISTORY_LIMIT : Nat := 50

/-- database.js getConversation (lines 267-300): reverse range-scan over
all of a user's message keys, collect up to `limit`, return reversed. -/
def getConversation (store : Store) (pubkey : String) (limit : Nat) :
    List FormattedMessage :=
  let npk := normalizePubkey pubkey
  if npk = "" then []
  else
    let pfx := "message:" ++ npk ++ ":"
    let ents := (rangeEntries store pfx (rangeEnd pfx)).reverse
    (collectHistory limit 0 ents).reverse

/-- database.js getConversationBySession (lines 302-340). -/
def getConversationBySession (store : Store) (pubkey sessionId : String)
    (limit : Nat) : List FormattedMessage :=
  let npk := normalizePubkey pubkey
  if npk = "" then []
  else
    let ssid := sanitizeSessionId (some sessionId)
    if ssid = "" then []
    else
      let pfx := "message:" ++ npk ++ ":" ++ ssid ++ ":"
      let ents := (rangeEntries store pfx (rangeEnd pfx)).reverse
      (collectHistory limit 0 ents).reverse

/-! ## Nostr events and the zap ledger -/

structure NostrEvent where
  id : String
  pubkey : String
  kind : Nat
  content : String
  tags : List (List String)
deriving DecidableEq, Repr

/-- `tags.find(tag => tag[0] === name)`. -/
def findTag (tags : List (List String)) (name : String) : Option (List String) :=
  tags.find? (fun t => decide (t.head? = some name))

/-- The zap ledger state held by zapdb.js. -/
structure ZapState where
  balances : List (String × JsNum)
  appliedReceipts : List String
deriving DecidableEq, Repr

/-- Modelled from the spec: zapdb.js is not under src/.  §4.6 Ledger:
`get(user) → integer ≥ 0` with 0 for unknown users. -/
def getBalance (bals : List (String × JsNum)) (pk : String) : JsNum :=
  match bals.find? (fun kv => decide (kv.1 = pk)) with
  | some kv => kv.2
  | none => .num 0

def setBalance (bals : List (String × JsNum)) (pk : String) (v : JsNum) :
    List (String × JsNum) :=
  match bals with
  | [] => [(pk, v)]
  | kv :: rest => if kv.1 = pk then (pk, v) :: rest else kv :: setBalance rest pk v

/-- JS addition on the ledger value; NaN propagates. -/
def jsAdd : JsNum → JsNum → JsNum
  | .num a, .num b => .num (a + b)
  | _, _ => .nan

/-- Modelled from the spec: zapdb.js deductFromBalance.  §4.6: `debit(user,
amount) → new_balance | InsufficientFunds`; a debit never produces a
negative balance and a failing debit leaves the balance unchanged. -/
def deductFromBalance (bals : List (String × JsNum)) (pk : String) (cost : Nat) :
    Option (List (String × JsNum) × Int) :=
  match getBalance bals pk with
  | .num b => if (cost : Int) ≤ b then some (setBalance bals pk (.num (b - cost)), b - cost)
              else none
  | .nan => none

/-- `currentBalance < cost` as JS evaluates it (NaN comparisons are false). -/
def jsLtNat (a : JsNum) (b : Nat) : Bool :=
  match a with
  | .num n => decide (n < (b : Int))
  | .nan => false

/-! ## Observable actions of the bot -/

inductive Action where
  | zapReceiptHandled (eventId : String)
  | balanceRequestHandled (pk : String)
  | rateCheck (pk : String)
  | sendDM (pk content : String)
  | sendReply (eventId pk content : String)
  | enqueueTask (eventId : String)
  | saveMsg (pk content : String) (isFromBot : Bool) (messageType : String)
  | debit (pk : String) (amount : Nat)
  | oracle (message : String) (history : List FormattedMessage)
  | publishBalance (pk : String) (balance : JsNum)
  | zapAck (pk : String) (balance amount : JsNum)
  | credit (pk : String) (amount : JsNum)
deriving DecidableEq, Repr

/-! ## Zap receipt handling (bot.js lines 1475-1550) -/

/-- The inner zap request parsed out of the receipt's description tag. -/
structure ZapRequest where
  pubkey : Option String
  id : Option String
  tags : List (List String)
deriving DecidableEq, Repr

/-- Modelled from the spec: zapdb.js saveZap is not under src/.  §4.6 and §3:
a receipt is applied at most once, keyed by the receipt event id; the
credit is atomic; a storage error aborts with no partial effect. -/
def saveZap (st : ZapState) (storageFail : Bool) (sender : String) (amount : JsNum)
    (receiptId : String) : Except String (ZapState × List Action) :=
  if storageFail then .error "storage error"
  else if st.appliedReceipts.contains receiptId then .ok (st, [])
  else
    .ok ({ balances := setBalance st.balances sender
             (jsAdd (getBalance st.balances sender) amount)
           appliedReceipts := receiptId :: st.appliedReceipts },
         [.credit sender amount])

/-- Amount extraction of bot.js handleZapReceipt (lines 1488-1522):
the inner request's amount tag floor-divided by 1000, with a fallback to
the receipt's own amount tag when the result compares equal to 0.
`descParse` is the outcome of JSON.parse on the description tag value
(none = the parse threw and was caught at line 1517). -/
def zapSenderAmount (ev : NostrEvent) (descParse : Option ZapRequest) :
    String × JsNum :=
  match findTag ev.tags "description" with
  | some t =>
    match t.get? 1 with
    | some d =>
      if d = "" then (ev.pubkey, .num 0)
      else
        match descParse with
        | some zr =>
          let sender := jsOrOptS zr.pubkey ev.pubkey
          let amt0 : JsNum :=
            match findTag zr.tags "amount" with
            | some at1 =>
              match at1.get? 1 with
              | some v => if v = "" then .num 0 else floorDiv1000 (jsParseInt v)
              | none => .num 0
            | none => .num 0
          let amt1 :=
            if amt0 = .num 0 then
              match findTag ev.tags "amount" with
              | some at2 =>
                match at2.get? 1 with
                | some v => if v = "" then amt0 else floorDiv1000 (jsParseInt v)
                | none => amt0
              | none => amt0
            else amt0
          (sender, amt1)
        | none => (ev.pubkey, .num 0)
    | none => (ev.pubkey, .num 0)
  | none => (ev.pubkey, .num 0)

/-- The try-block of bot.js handleZapReceipt (lines 1476-1546). -/
def handleZapReceiptBody (st : ZapState) (ev : NostrEvent)
    (descParse : Option ZapRequest) (storageFail : Bool) :
    Except String (ZapState × List Action) :=
  let sa := zapSenderAmount ev descParse
  if sa.2 = .num 0 then .ok (st, [])
  else
    match saveZap st storageFail sa.1 sa.2 ev.id with
    | .error e => .error e
    | .ok (st2, acts) =>
      let bal := getBalance st2.balances sa.1
      .ok (st2, acts ++ [.zapAck sa.1 bal sa.2, .publishBalance sa.1 bal])

/-- bot.js handleZapReceipt with its outer try/catch (lines 1547-1549):
every error is logged and swallowed, the handler always returns normally. -/
def handleZapReceipt (st : ZapState) (ev : NostrEvent)
    (descParse : Option ZapRequest) (storageFail : Bool) : ZapState × List Action :=
  match handleZapReceiptBody st ev descParse storageFail with
  | .ok r => r
  | .error _ => (st, [])

/-- bot.js handleBalanceRequest (lines 1555-1570). -/
def handleBalanceRequest (st : ZapState) (ev : NostrEvent) : List Action :=
  [.balanceRequestHandled ev.pubkey, .publishBalance ev.pubkey (getBalance st.balances ev.pubkey)]

/-! ## The dispatcher: handleEvent (bot.js lines 930-1018) -/

structure BotStats where
  messagesReceived : Nat
  messagesSent : Nat
  messagesQueued : Nat
  messagesDropped : Nat
  rateLimited : Nat
  errors : Nat
deriving DecidableEq, Repr

structure BotState where
  processedEvents : List String
  processedMessages : List (String × Nat)
  store : Store
  zap : ZapState
  stats : BotStats
deriving DecidableEq, Repr

/-- The result the rate limiter returns for checkLimit (ratelimiter.js is
not under src/; handleEvent only reads these fields, so the outcome is an
input of the embedding). -/
structure RateLimitResult where
  allowed : Bool
  retryAfter : Nat
  reason : String
deriving DecidableEq, Repr

/-- The queue-full notice of bot.js line 1010 (its literal text contains an
apostrophe and is abbreviated here; only its identity matters). -/
def queueFullNotice : String :=
  "Very busy processing many requests. Please try again in a few minutes."

/-- bot.js handleEvent: dedup by event id with eviction of the oldest entry
beyond 1000, self-filter, routing by kind, stats, rate limit, enqueue. -/
def handleEvent (self : String) (st : BotState) (ev : NostrEvent)
    (rl : RateLimitResult) (queueFull : Bool)
    (descParse : Option ZapRequest) (storageFail : Bool) : BotState × List Action :=
  if st.processedEvents.contains ev.id then (st, [])
  else
    let pe0 := st.processedEvents ++ [ev.id]
    let pe := if 1000 < pe0.length then pe0.tail else pe0
    let st1 := { st with processedEvents := pe }
    if ev.pubkey = self then (st1, [])
    else if ev.kind = 9735 then
      let z := handleZapReceipt st1.zap ev descParse storageFail
      ({ st1 with zap := z.1 }, .zapReceiptHandled ev.id :: z.2)
    else if ev.kind = 1006 then
      (st1, handleBalanceRequest st1.zap ev)
    else
      let st2 := { st1 with stats := { st1.stats with
        messagesReceived := st1.stats.messagesReceived + 1 } }
      if ¬ rl.allowed then
        let st3 := { st2 with stats := { st2.stats with
          rateLimited := st2.stats.rateLimited + 1 } }
        if ev.kind = 4 then
          (st3, [.rateCheck ev.pubkey,
                 .sendDM ev.pubkey
                   (rl.reason ++ " (Retry in " ++ natRepr rl.retryAfter ++ " seconds)")])
        else (st3, [.rateCheck ev.pubkey])
      else
        let st3 := { st2 with stats := { st2.stats with
          messagesQueued := st2.stats.messagesQueued + 1 } }
        if queueFull then
          let st4 := { st3 with stats := { st3.stats with
            messagesDropped := st3.stats.messagesDropped + 1 } }
          if ev.kind = 4 then
            (st4, [.rateCheck ev.pubkey, .sendDM ev.pubkey queueFullNotice])
          else (st4, [.rateCheck ev.pubkey])
        else (st3, [.rateCheck ev.pubkey, .enqueueTask ev.id])

/-! ## The processor: processMessage (bot.js lines 1023-1242) -/

/-- Whether the worker body completed or re-threw for the queue's retry
logic (bot.js line 1240). -/
inductive ProcOutcome where
  | done
  | rethrown
deriving DecidableEq, Repr

/-- JS Map.set on the content-fingerprint map. -/
def setFingerprint : List (String × Nat) → String → Nat → List (String × Nat)
  | [], k, v => [(k, v)]
  | kv :: rest, k, v => if kv.1 = k then (k, v) :: rest else kv :: setFingerprint rest k v

/-- The error notice of the catch clause (bot.js lines 1229-1238). -/
def procErrorNotice : String :=
  "I encountered an error processing your message. Please try again."

/-- The insufficient-balance reply (bot.js lines 1121-1124). -/
def insufficientBalanceMsg (balance : JsNum) (cost kind : Nat) : String :=
  "❌ Insufficient balance!\n\n💰 Your balance: " ++ jsNumRepr balance
    ++ " sats\n💸 Required: " ++ natRepr cost ++ " sats ("
    ++ (if kind = 4 then "DM" else "Public mention/reply")
    ++ ")\n\nPlease send a Zap to top up your balance and continue using ZapAI. Thank you! ⚡"

/-- The debit-failure reply (bot.js line 1152). -/
def paymentErrorMsg : String :=
  "⚠️ An error occurred while processing your payment. Please try again."

/-- The balance footer appended to the oracle output (bot.js line 1187). -/
def balanceFooter (newBalance : Int) (cost : Nat) : String :=
  "\n\n💰 Balance: " ++ jsNumRepr (.num newBalance) ++ " sats | 💸 Cost: "
    ++ natRepr cost ++ " sats"

/-- The catch clause of processMessage (bot.js lines 1224-1241): count the
error, send an error DM for kind-4 origins, re-throw for the queue. -/
def procCatch (st : BotState) (ev : NostrEvent) (acts : List Action) :
    BotState × List Action × ProcOutcome :=
  let st1 := { st with stats := { st.stats with errors := st.stats.errors + 1 } }
  if ev.kind = 4 then (st1, acts ++ [.sendDM ev.pubkey procErrorNotice], .rethrown)
  else (st1, acts, .rethrown)

/-- The SaveMeta of the user-message save (bot.js lines 1085-1095). -/
def userSaveMeta (ev : NostrEvent) (sessionId0 : Option String) : SaveMeta :=
  ⟨none, sessionId0, some ev.id, some ev.kind, some "question", none, none, none⟩

/-- The SaveMeta of a system-message save (bot.js lines 1132-1141, 1159-1168). -/
def systemSaveMeta (ev : NostrEvent) (sessionId1 : Option String) : SaveMeta :=
  ⟨none, sessionId1, none, some ev.kind, some "system", none, none, none⟩

/-- The SaveMeta of the bot-response save (bot.js lines 1209-1220). -/
def responseSaveMeta (ev : NostrEvent) (sessionId1 : Option String)
    (respEventId userMessageId : String) : SaveMeta :=
  ⟨none, sessionId1, some respEventId, some ev.kind, some "response",
    some userMessageId, none, none⟩

/-- The DM-or-public-reply send of a message (bot.js lines 1126-1130,
1153-1157, 1195-1203): kinds other than 4/1 are unreachable here. -/
def sendActions (ev : NostrEvent) (msg : String) : List Action :=
  if ev.kind = 4 then [.sendDM ev.pubkey msg]
  else if ev.kind = 1 then [.sendReply ev.id ev.pubkey msg] else []

/-- The history load of bot.js lines 1177-1179. -/
def histOf (st : BotState) (ev : NostrEvent) (sid1 : Option String) :
    List FormattedMessage :=
  match sid1 with
  | some s => getConversationBySession st.store ev.pubkey s DEFAULT_HISTORY_LIMIT
  | none => getConversation st.store ev.pubkey DEFAULT_HISTORY_LIMIT

/-- The stage of processMessage from the balance gate on (bot.js lines
1110-1223), reached with the resolved plaintext, the save result of the
user message and the session id. -/
def processAfterGate (now : Nat) (rand2 : String) (aiResponse respEventId : String)
    (st : BotState) (ev : NostrEvent) (messageContent : String)
    (r : SaveResult) (sid1 : Option String) (acts0 : List Action) :
    BotState × List Action × ProcOutcome :=
  if jsLtNat (getBalance st.zap.balances ev.pubkey) (if ev.kind = 4 then 20 else 50) then
    match saveMessage now rand2 st.store ev.pubkey
        (insufficientBalanceMsg (getBalance st.zap.balances ev.pubkey)
          (if ev.kind = 4 then 20 else 50) ev.kind) true (systemSaveMeta ev sid1) with
    | .error _ =>
      procCatch st ev (acts0
        ++ sendActions ev (insufficientBalanceMsg (getBalance st.zap.balances ev.pubkey)
             (if ev.kind = 4 then 20 else 50) ev.kind)
        ++ [.saveMsg ev.pubkey (insufficientBalanceMsg (getBalance st.zap.balances ev.pubkey)
             (if ev.kind = 4 then 20 else 50) ev.kind) true "system"])
    | .ok (store2, _) =>
      ({ st with store := store2 },
       acts0
        ++ sendActions ev (insufficientBalanceMsg (getBalance st.zap.balances ev.pubkey)
             (if ev.kind = 4 then 20 else 50) ev.kind)
        ++ [.saveMsg ev.pubkey (insufficientBalanceMsg (getBalance st.zap.balances ev.pubkey)
             (if ev.kind = 4 then 20 else 50) ev.kind) true "system"],
       .done)
  else
    match deductFromBalance st.zap.balances ev.pubkey (if ev.kind = 4 then 20 else 50) with
    | none =>
      match saveMessage now rand2 st.store ev.pubkey paymentErrorMsg true
          (systemSaveMeta ev sid1) with
      | .error _ =>
        procCatch st ev (acts0 ++ sendActions ev paymentErrorMsg
          ++ [.saveMsg ev.pubkey paymentErrorMsg true "system"])
      | .ok (store2, _) =>
        ({ st with store := store2 },
         acts0 ++ sendActions ev paymentErrorMsg
          ++ [.saveMsg ev.pubkey paymentErrorMsg true "system"],
         .done)
    | some (bals2, newBal) =>
      match saveMessage now rand2 st.store ev.pubkey
          (aiResponse ++ balanceFooter newBal (if ev.kind = 4 then 20 else 50)) true
          (responseSaveMeta ev sid1 respEventId r.messageId) with
      | .error _ =>
        procCatch { st with zap := { st.zap with balances := bals2 } } ev
          (acts0 ++ [.debit ev.pubkey (if ev.kind = 4 then 20 else 50)]
           ++ [.oracle messageContent (histOf st ev sid1)]
           ++ sendActions ev (aiResponse ++ balanceFooter newBal (if ev.kind = 4 then 20 else 50))
           ++ [.publishBalance ev.pubkey (.num newBal)]
           ++ [.saveMsg ev.pubkey
                (aiResponse ++ balanceFooter newBal (if ev.kind = 4 then 20 else 50))
                true "response"])
      | .ok (store2, _) =>
        ({ st with zap := { st.zap with balances := bals2 }, store := store2 },
         acts0 ++ [.debit ev.pubkey (if ev.kind = 4 then 20 else 50)]
          ++ [.oracle messageContent (histOf st ev sid1)]
          ++ sendActions ev (aiResponse ++ balanceFooter newBal (if ev.kind = 4 then 20 else 50))
          ++ [.publishBalance ev.pubkey (.num newBal)]
          ++ [.saveMsg ev.pubkey
               (aiResponse ++ balanceFooter newBal (if ev.kind = 4 then 20 else 50))
               true "response"],
         .done)

/-- The fingerprint-map update of bot.js lines 1070-1080: set the new
fingerprint, then sweep entries older than five minutes. -/
def fpUpdate (pm : List (String × Nat)) (fp : String) (now : Nat) :
    List (String × Nat) :=
  (setFingerprint pm fp now).filter (fun kv => decide (now - kv.2 ≤ 300000))

/-- The stage of processMessage from the empty-content check on (bot.js
lines 1056-1108), reached with the resolved plaintext. -/
def processWithContent (now : Nat) (rand1 rand2 : String) (aiResponse respEventId : String)
    (st : BotState) (ev : NostrEvent) (sessionId0 : Option String)
    (messageContent : String) : BotState × List Action × ProcOutcome :=
  if trimChars messageContent.data = [] then (st, [], .done)
  else if (st.processedMessages.find?
      (fun kv => decide (kv.1 = ev.pubkey ++ ":" ++ messageContent))).isSome then
    (st, [], .done)
  else
    match saveMessage now rand1 st.store ev.pubkey messageContent false
        (userSaveMeta ev sessionId0) with
    | .error _ =>
      procCatch
        { st with processedMessages := fpUpdate st.processedMessages (ev.pubkey ++ ":" ++ messageContent) now }
        ev [.saveMsg ev.pubkey messageContent false "question"]
    | .ok (store1, r) =>
      if r.duplicate then
        ({ st with
            processedMessages :=
              fpUpdate st.processedMessages (ev.pubkey ++ ":" ++ messageContent) now,
            store := store1 },
         [.saveMsg ev.pubkey messageContent false "question"], .done)
      else
        processAfterGate now rand2 aiResponse respEventId
          { st with
              processedMessages :=
                fpUpdate st.processedMessages (ev.pubkey ++ ":" ++ messageContent) now,
              store := store1 }
          ev messageContent r
          (if r.sessionId = "" then sessionId0 else some r.sessionId)
          [.saveMsg ev.pubkey messageContent false "question"]

/-- The session tag extraction of bot.js lines 1029-1037 (kind 4 only). -/
def sessionTagOf (ev : NostrEvent) : Option String :=
  if ev.kind = 4 then
    match findTag ev.tags "session" with
    | some t =>
      match t.get? 1 with
      | some v => if v = "" then none else some v
      | none => none
    | none => none
  else none

/-- bot.js processMessage (lines 1023-1242).  `decrypted` is the outcome of
the NIP-04 decrypt for kind-4 content (none = the decrypt threw),
`aiResponse` the oracle output and `respEventId` the id of the signed
response event. -/
def processMessage (now : Nat) (rand1 rand2 : String) (decrypted : Option String)
    (aiResponse respEventId : String) (st : BotState) (ev : NostrEvent) :
    BotState × List Action × ProcOutcome :=
  if ev.kind = 4 then
    match decrypted with
    | none => procCatch st ev []
    | some m =>
      processWithContent now rand1 rand2 aiResponse respEventId st ev (sessionTagOf ev) m
  else if ev.kind = 1 then
    processWithContent now rand1 rand2 aiResponse respEventId st ev (sessionTagOf ev)
      ev.content
  else (st, [], .done)

/-! ## Publishing (bot.js sendDM lines 1247-1330, sendReply lines 1335-1403) -/

/-- bot.js sendDM at the publish level: every per-relay rejection is caught
and mapped to success=false, successCount counts the accepts,
stats.messagesSent is incremented only when at least one relay accepted,
and the signed event is returned regardless.  The only throwing paths are
the NIP-04 encrypt and the signer (the Except.error arm).  The result
carries (successCount, stats-incremented). -/
def sendDMPublish (encryptOk signOk : Bool) (relayResults : List Bool) :
    Except String (Nat × Bool) :=
  if ¬ encryptOk then .error "NIP-04 encryption not supported by signer"
  else if ¬ signOk then .error "sign failed"
  else
    let successCount := (relayResults.filter (fun b => b)).length
    .ok (successCount, decide (0 < successCount))

/-- bot.js sendReply at the publish level (same publish logic, no encrypt). -/
def sendReplyPublish (signOk : Bool) (relayResults : List Bool) :
    Except String (Nat × Bool) :=
  if ¬ signOk then .error "sign failed"
  else
    let successCount := (relayResults.filter (fun b => b)).length
    .ok (successCount, decide (0 < successCount))

/-! ## The oracle request (gemini.js _generateResponseInternal lines 442-487) -/

structure ChatMessage where
  role : String
  text : String
deriving DecidableEq, Repr

/-- gemini.js lines 443-457: the chat history sent to the model is
conversationHistory.slice(-40) mapped to role/parts entries. -/
def buildChatHistory (conversationHistory : List FormattedMessage) : List ChatMessage :=
  (conversationHistory.drop (conversationHistory.length - 40)).map
    (fun m => ⟨if m.isFromBot then "model" else "user", m.message⟩)

/-- What reaches the model: the chat history plus the enhanced prompt
carrying the new message (gemini.js lines 478-487). -/
structure GeminiRequest where
  history : List ChatMessage
  prompt : String
deriving DecidableEq, Repr

def generateRequest (systemInstructions message : String)
    (conversationHistory : List FormattedMessage) : GeminiRequest :=
  ⟨buildChatHistory conversationHistory,
   systemInstructions ++ "\n\nUser question: " ++ message⟩

/-! ## The subscription loop (bot.js listenToRelay lines 850-925) -/

/-- Per-relay loop state: the reconnectAttempts counter and membership in
failedRelays. -/
structure RelayLoopState where
  reconnectAttempts : Nat
  permanentlyFailed : Bool
deriving DecidableEq, Repr

/-- bot.js maxReconnectAttempts (line 725). -/
def maxReconnectAttempts : Nat := 5

/-- One while-iteration of listenToRelay per list element; the Bool records
whether any EVENT frame arrived during that subscription before the stream
ended or threw (each event resets the attempt counter, line 870).  The end
of the list is the abort signal.  The returned Nat counts subscriptions
opened; a cycle whose counter has reached the ceiling marks the relay
permanently failed and exits the loop. -/
def listenToRelay (st : RelayLoopState) : List Bool → RelayLoopState × Nat
  | [] => (st, 0)
  | gotEvent :: rest =>
    if st.permanentlyFailed then (st, 0)
    else
      let attempts := if gotEvent then 0 else st.reconnectAttempts
      if maxReconnectAttempts ≤ attempts then
        (⟨attempts, true⟩, 1)
      else
        let r := listenToRelay ⟨attempts + 1, false⟩ rest
        (r.1, r.2 + 1)

/-! ## Concrete sample values used by witnesses and counterexamples -/

def zeroStats : BotStats := ⟨0, 0, 0, 0, 0, 0⟩

def emptyZap : ZapState := ⟨[], []⟩

def rlOk : RateLimitResult := ⟨true, 0, "Rate limit exceeded"⟩

/-- A state that has already processed event id "a". -/
def stWithA : BotState := ⟨["a"], [], [], emptyZap, zeroStats⟩

def evA : NostrEvent := ⟨"a", "u1", 4, "hello", []⟩

def evB : NostrEvent := ⟨"b", "u1", 4, "hello", []⟩

/-- An inner zap request whose amount tag value is not a number. -/
def zapReqBad : ZapRequest := ⟨some "payer1", some "req1", [["amount", "abc"]]⟩

/-- A receipt carrying the unparsable request of zapReqBad. -/
def evZapBad : NostrEvent :=
  ⟨"zr1", "wallet", 9735, "", [["bolt11", "lnbc1"], ["description", "zapreqjson"]]⟩

/-- A receipt without a description tag. -/
def evZapNoDesc : NostrEvent := ⟨"zr2", "wallet", 9735, "", [["bolt11", "lnbc2"]]⟩

/-- A well-formed 2500-millisat zap request and its receipt. -/
def zapReqGood : ZapRequest := ⟨some "payer2", some "req2", [["amount", "2500"]]⟩

def evZapGood : NostrEvent :=
  ⟨"zr3", "wallet", 9735, "", [["bolt11", "lnbc3"], ["description", "zapreqjson"]]⟩

/-- Actions that would notify a user or involve the work queue. -/
def isOutbound : Action → Bool
  | .sendDM _ _ => true
  | .sendReply _ _ _ => true
  | .enqueueTask _ => true
  | _ => false

/-- Every oracle call in a processMessage trace must be preceded by a
successful debit of `cost` against `pk`: the scan fails on an oracle action
seen before such a debit and accepts the rest of the trace after one. -/
def chargedBeforeOracle (cost : Nat) (pk : String) : List Action → Bool
  | [] => true
  | .oracle _ _ :: _ => false
  | .debit pk2 c :: rest =>
    if pk2 = pk ∧ c = cost then true else chargedBeforeOracle cost pk rest
  | _ :: rest => chargedBeforeOracle cost pk rest

/-- Total projection of a saveMessage result (all uses are on ok results). -/
def saveOk (r : Except String (Store × SaveResult)) : Store × SaveResult :=
  match r with
  | .ok p => p
  | .error _ => ([], ⟨"", "", 0, none, true⟩)

/-- The metadata of the eventless first save of the C3 counterexample. -/
def c3meta1 : SaveMeta := ⟨some 2, some "s", none, some 4, some "question", none, none, none⟩

/-- The metadata of the event-carrying second save of the C3 counterexample. -/
def c3meta2 : SaveMeta := ⟨some 2, some "s", some "e2", some 4, some "question", none, none, none⟩

def c3save1 : Except String (Store × SaveResult) :=
  saveMessage 5 "r1" [] "u" "hello" false c3meta1

def c3save2 : Except String (Store × SaveResult) :=
  saveMessage 6 "r2" (saveOk c3save1).1 "u" "world" false c3meta2

def c3save3 : Except String (Store × SaveResult) :=
  saveMessage 5 "r1" [] "u" "hello" false c3meta2

/-- Sortedness of the modelled keyspace in byte order (the invariant the
ordered dbPut maintains), as a decidable check. -/
def storeSortedB : Store → Bool
  | [] => true
  | kv :: rest => rest.all (fun kv2 => strLtB kv.1 kv2.1) && storeSortedB rest

/-- Accumulator form of the numeric value of a decimal digit string. -/
def valAux : Nat → List Char → Nat
  | acc, [] => acc
  | acc, c :: r => valAux (acc * 10 + digitVal c) r

/-- Numeric value of a decimal digit string. -/
def valL (l : List Char) : Nat := valAux 0 l

/-- A scanned entry is well formed for the key stem P: a message record
stored under P, the 15-digit padded timestamp and the direction, whose
record timestamp is positive, below 10^15 (so 15 digits render it
faithfully) and equal to the key timestamp — exactly what saveWrites
produces for messages of the (user, session) that P names. -/
def wfRangeEntry (P : String) (kv : String × DbValue) : Bool :=
  match kv.2 with
  | .message m =>
    decide (0 < m.timestamp) && decide (m.timestamp < 10 ^ 15) &&
      (decide (kv.1 = P ++ padTimestamp 0 m.timestamp ++ ":user")
        || decide (kv.1 = P ++ padTimestamp 0 m.timestamp ++ ":bot"))
  | _ => false

/-- First message of the C4 counterexample: session a, timestamp 2000. -/
def c4m1 : MessageRecord :=
  ⟨"u", "a", "first question", false, 2000, "m1", "question", none, none, none⟩

/-- Second message of the C4 counterexample: session b, timestamp 1000. -/
def c4m2 : MessageRecord :=
  ⟨"u", "b", "second question", false, 1000, "m2", "question", none, none, none⟩

/-- The C4 counterexample store: user u holds one message in session a
(timestamp 2000) and one in session b (timestamp 1000), under their real
message keys, in sorted key order. -/
def c4store : Store :=
  [("message:u:a:" ++ padTimestamp 0 2000 ++ ":user", .message c4m1),
   ("message:u:b:" ++ padTimestamp 0 1000 ++ ":user", .message c4m2)]

/-- First message of the C4 witness store: session s, timestamp 1000. -/
def c4w1 : MessageRecord :=
  ⟨"u", "s", "hello", false, 1000, "w1", "question", none, none, none⟩

/-- Second message of the C4 witness store: session s, timestamp 2000. -/
def c4w2 : MessageRecord :=
  ⟨"u", "s", "world", true, 2000, "w2", "response", none, none, none⟩

/-- The C4 witness store: both messages of user u sit in the one session s. -/
def c4wstore : Store :=
  [("message:u:s:" ++ padTimestamp 0 1000 ++ ":user", .message c4w1),
   ("message:u:s:" ++ padTimestamp 0 2000 ++ ":bot", .message c4w2)]

/-- The event of the C1 witness: a kind-4 DM from user u1. -/
def c1ev : NostrEvent := ⟨"e1", "u1", 4, "x", []⟩

/-- The state of the C1 witness: empty store, u1 holds 5 sats (< 20). -/
def c1st : BotState := ⟨[], [], [], ⟨[("u1", .num 5)], []⟩, ⟨0, 0, 0, 0, 0, 0⟩⟩

/-! # Theorems -/

/-! ## Basic facts about the key order and the store -/

theorem char_eq_of_toNat_eq {c d : Char} (h : c.toNat = d.toNat) : c = d :=
  Char.ext (by exact UInt32.ext (by exact h))

theorem string_eq_of_data_eq {s t : String} (h : s.data = t.data) : s = t := by
  cases s
  cases t
  exact congrArg String.mk h

theorem lexLtB_irrefl (l : List Char) : lexLtB l l = false := by
  induction l with
  | nil => rfl
  | cons a t ih => simp [lexLtB, ih]

theorem lexLtB_antisymm : ∀ {a b : List Char},
    lexLtB a b = false → lexLtB b a = false → a = b := by
  intro a
  induction a with
  | nil =>
    intro b h1 _
    cases b with
    | nil => rfl
    | cons y ys => simp [lexLtB] at h1
  | cons x xs ih =>
    intro b h1 h2
    cases b with
    | nil => simp [lexLtB] at h2
    | cons y ys =>
      simp only [lexLtB] at h1 h2
      by_cases hxy : x = y
      · subst hxy
        rw [if_pos rfl] at h1 h2
        rw [ih h1 h2]
      · rw [if_neg hxy] at h1
        rw [if_neg (Ne.symm hxy)] at h2
        simp only [decide_eq_false_iff_not, Nat.not_lt] at h1 h2
        exact absurd (char_eq_of_toNat_eq (Nat.le_antisymm h2 h1)) hxy

theorem strLtB_irrefl (s : String) : strLtB s s = false := lexLtB_irrefl s.data

theorem strLtB_eq_of_both_false {s t : String} (h1 : strLtB s t = false)
    (h2 : strLtB t s = false) : s = t :=
  string_eq_of_data_eq (lexLtB_antisymm h1 h2)

theorem strLtB_ne {s t : String} (h : strLtB s t = true) : s ≠ t := by
  intro he
  subst he
  rw [strLtB_irrefl] at h
  exact Bool.noConfusion h

theorem dbGet_nil (k : String) : dbGet [] k = none := rfl

theorem dbGet_cons (a : String × DbValue) (l : Store) (k : String) :
    dbGet (a :: l) k = if a.1 = k then some a.2 else dbGet l k := by
  unfold dbGet
  simp only [List.find?]
  by_cases h : a.1 = k <;> simp [h]

theorem dbGet_dbPut_self (store : Store) (k : String) (v : DbValue) :
    dbGet (dbPut store k v) k = some v := by
  induction store with
  | nil => simp [dbPut, dbGet_cons]
  | cons a rest ih =>
    obtain ⟨k1, v1⟩ := a
    unfold dbPut
    by_cases h1 : strLtB k k1 = true
    · rw [if_pos h1]
      simp [dbGet_cons]
    · rw [if_neg h1]
      by_cases h2 : strLtB k1 k = true
      · rw [if_pos h2]
        rw [dbGet_cons, if_neg (strLtB_ne h2)]
        exact ih
      · rw [if_neg h2]
        simp [dbGet_cons]

theorem dbGet_dbPut_ne (store : Store) (k k2 : String) (v : DbValue) (h : k2 ≠ k) :
    dbGet (dbPut store k v) k2 = dbGet store k2 := by
  induction store with
  | nil => simp [dbPut, dbGet_cons, Ne.symm h, dbGet_nil]
  | cons a rest ih =>
    obtain ⟨k1, v1⟩ := a
    unfold dbPut
    by_cases h1 : strLtB k k1 = true
    · rw [if_pos h1]
      rw [dbGet_cons, if_neg (Ne.symm h), dbGet_cons]
    · rw [if_neg h1]
      by_cases h2 : strLtB k1 k = true
      · rw [if_pos h2]
        rw [dbGet_cons, dbGet_cons, ih]
      · rw [if_neg h2]
        have hk : k = k1 :=
          strLtB_eq_of_both_false (Bool.eq_false_iff.mpr h1) (Bool.eq_false_iff.mpr h2)
        subst hk
        rw [dbGet_cons, if_neg (Ne.symm h), dbGet_cons, if_neg (Ne.symm h)]

theorem ne_of_head_ne {s t : String} (h : s.data.head? ≠ t.data.head?) : s ≠ t :=
  fun he => h (by rw [he])

theorem messageKey_head (now : Nat) (pk sid : String) (ts : Nat) (dir : String) :
    (buildMessageKey now pk sid ts dir).data.head? = some 'm' := rfl

theorem hashKey_head (now : Nat) (pk sid : String) (ts : Nat) (dir : String)
    (eid : Option String) :
    (buildHashKey now pk sid ts dir eid).data.head? = some 'h' := by
  unfold buildHashKey
  split <;> rfl

theorem sessionKey_head (pk sid : String) :
    (buildSessionKey pk sid).data.head? = some 's' := rfl

theorem sessionKey_ne_messageKey (pk sid : String) (now : Nat) (pk2 sid2 : String)
    (ts : Nat) (dir : String) :
    buildSessionKey pk sid ≠ buildMessageKey now pk2 sid2 ts dir := by
  apply ne_of_head_ne
  rw [sessionKey_head, messageKey_head]
  decide

theorem sessionKey_ne_hashKey (pk sid : String) (now : Nat) (pk2 sid2 : String)
    (ts : Nat) (dir : String) (eid : Option String) :
    buildSessionKey pk sid ≠ buildHashKey now pk2 sid2 ts dir eid := by
  apply ne_of_head_ne
  rw [sessionKey_head, hashKey_head]
  decide

theorem hashKey_ne_messageKey (now : Nat) (pk sid : String) (ts : Nat) (dir : String)
    (eid : Option String) (now2 : Nat) (pk2 sid2 : String) (ts2 : Nat) (dir2 : String) :
    buildHashKey now pk sid ts dir eid ≠ buildMessageKey now2 pk2 sid2 ts2 dir2 := by
  apply ne_of_head_ne
  rw [hashKey_head, messageKey_head]
  decide

/-! ## Idempotency of pubkey normalization -/

theorem trimChars_eq_rdropWhile (l : List Char) :
    trimChars l = List.rdropWhile isWsChar (l.dropWhile isWsChar) := rfl

theorem trimChars_idem (l : List Char) : trimChars (trimChars l) = trimChars l := by
  rw [trimChars_eq_rdropWhile, trimChars_eq_rdropWhile]
  have h1 : (List.rdropWhile isWsChar (l.dropWhile isWsChar)).dropWhile isWsChar
      = List.rdropWhile isWsChar (l.dropWhile isWsChar) := by
    rw [List.dropWhile_eq_self_iff]
    intro hl
    have hpre := List.rdropWhile_prefix isWsChar (l.dropWhile isWsChar)
    have hlen : 0 < (l.dropWhile isWsChar).length := hl.trans_le hpre.length_le
    have hgot := List.IsPrefix.getElem hpre hl
    have hnot := List.dropWhile_get_zero_not isWsChar l hlen
    simp only [List.get_eq_getElem] at hnot ⊢
    rw [hgot]
    exact hnot
  rw [h1, List.rdropWhile_idempotent]

theorem normalizePubkey_idem (p : String) :
    normalizePubkey (normalizePubkey p) = normalizePubkey p := by
  unfold normalizePubkey
  exact congrArg String.mk (trimChars_idem p.data)

/-! ## ensureSession and saveMessage framing -/

/-- With a nonempty normalized pubkey, ensureSession always succeeds. -/
theorem ensureSession_ok (now : Nat) (rand : String) (store : Store) (pk : String)
    (req : Option String) (md : EnsureMeta) (h : normalizePubkey pk ≠ "") :
    ∃ store1 sid isNew, ensureSession now rand store pk req md = .ok (store1, sid, isNew) := by
  unfold ensureSession
  rw [if_neg h]
  split
  · exact ⟨_, _, _, rfl⟩
  · exact ⟨_, _, _, rfl⟩
  · exact ⟨_, _, _, rfl⟩

/-- sessionUpdateStep writes at most the session key. -/
theorem sessionUpdateStep_writes_only_sk (now : Nat) (store : Store)
    (npk sid : String) (md : EnsureMeta) (s : SessionRecord) :
    ∀ k, k ≠ buildSessionKey npk sid →
      dbGet (sessionUpdateStep now store npk sid md s) k = dbGet store k := by
  intro k hk
  unfold sessionUpdateStep
  split
  · exact dbGet_dbPut_ne store _ k _ hk
  · rfl

/-- ensureSession writes at most the session key of the session it
resolves. -/
theorem ensureSession_writes_only_sk (now : Nat) (rand : String) (store : Store)
    (pk : String) (req : Option String) (md : EnsureMeta)
    (store1 : Store) (sid : String) (isNew : Bool)
    (h : ensureSession now rand store pk req md = .ok (store1, sid, isNew)) :
    ∀ k, k ≠ buildSessionKey (normalizePubkey pk) sid → dbGet store1 k = dbGet store k := by
  intro k hk
  unfold ensureSession at h
  by_cases hpk : normalizePubkey pk = ""
  · rw [if_pos hpk] at h
    exact absurd h (by simp)
  · rw [if_neg hpk] at h
    split at h
    · rename_i s heq
      rw [Except.ok.injEq, Prod.mk.injEq, Prod.mk.injEq] at h
      obtain ⟨h1, h2, _⟩ := h
      subst h2
      rw [← h1]
      exact sessionUpdateStep_writes_only_sk now store _ _ _ s k hk
    · rw [Except.ok.injEq, Prod.mk.injEq, Prod.mk.injEq] at h
      obtain ⟨h1, _, _⟩ := h
      rw [← h1]
    · rw [Except.ok.injEq, Prod.mk.injEq, Prod.mk.injEq] at h
      obtain ⟨h1, h2, _⟩ := h
      subst h2
      rw [← h1]
      exact dbGet_dbPut_ne store _ k _ hk

/-- With a nonempty normalized pubkey, saveMessage always succeeds. -/
theorem saveMessage_ok (now : Nat) (rand : String) (store : Store)
    (pubkey message : String) (isFromBot : Bool) (md : SaveMeta)
    (h : normalizePubkey pubkey ≠ "") :
    ∃ st2 r, saveMessage now rand store pubkey message isFromBot md = .ok (st2, r) := by
  unfold saveMessage
  rw [if_neg h]
  obtain ⟨store1, sid, isNew, heq⟩ :=
    ensureSession_ok now rand store (normalizePubkey pubkey) md.sessionId
      ⟨derivedSource md, md.sessionLabel, false, none⟩
      (by rw [normalizePubkey_idem]; exact h)
  simp only [heq]
  cases hdb : dbGet store1 (buildHashKey now (normalizePubkey pubkey) sid
      (md.timestamp.getD now) (if isFromBot then "bot" else "user") md.eventId) with
  | none =>
    simp only [hdb]
    exact ⟨_, _, rfl⟩
  | some v =>
    simp only [hdb]
    exact ⟨_, _, rfl⟩

/-- _updateSessionAfterMessage writes at most the session key. -/
theorem updateSession_writes_only_sk (store : Store) (pk sid : String)
    (m : MessageRecord) :
    ∀ k, k ≠ buildSessionKey pk sid →
      dbGet (updateSessionAfterMessage store pk sid m) k = dbGet store k := by
  intro k hk
  unfold updateSessionAfterMessage
  split
  · exact dbGet_dbPut_ne store _ k _ hk
  · rfl
  · exact dbGet_dbPut_ne store _ k _ hk

/-- What the write phase of a non-duplicate save leaves in the store. -/
theorem saveWrites_spec (now : Nat) (store1 : Store) (npk sid message : String)
    (isFromBot : Bool) (ts : Nat) (direction : String) (md : SaveMeta) :
    dbGet (saveWrites now store1 npk sid message isFromBot ts direction md)
        (buildMessageKey now npk sid ts direction)
      = some (.message (mkMessageRecord npk sid message isFromBot ts direction md)) ∧
    dbGet (saveWrites now store1 npk sid message isFromBot ts direction md)
        (buildHashKey now npk sid ts direction md.eventId)
      = some (.hash ⟨buildMessageKey now npk sid ts direction, ts⟩) ∧
    (∀ s, dbGet store1 (buildSessionKey npk sid) = some (.session s) →
      dbGet (saveWrites now store1 npk sid message isFromBot ts direction md)
          (buildSessionKey npk sid)
        = some (.session (bumpSessionRecord s
            (mkMessageRecord npk sid message isFromBot ts direction md)))) := by
  unfold saveWrites
  have hmk_ne_sk : buildMessageKey now npk sid ts direction ≠ buildSessionKey npk sid :=
    (sessionKey_ne_messageKey npk sid now npk sid ts direction).symm
  have hhk_ne_sk : buildHashKey now npk sid ts direction md.eventId ≠ buildSessionKey npk sid :=
    (sessionKey_ne_hashKey npk sid now npk sid ts direction md.eventId).symm
  have hmk_ne_hk : buildMessageKey now npk sid ts direction
      ≠ buildHashKey now npk sid ts direction md.eventId :=
    (hashKey_ne_messageKey now npk sid ts direction md.eventId now npk sid ts direction).symm
  refine ⟨?_, ?_, ?_⟩
  · rw [updateSession_writes_only_sk _ _ _ _ _ hmk_ne_sk,
      dbGet_dbPut_ne _ _ _ _ hmk_ne_hk, dbGet_dbPut_self]
  · rw [updateSession_writes_only_sk _ _ _ _ _ hhk_ne_sk, dbGet_dbPut_self]
  · intro s hs
    have hs3 : dbGet (dbPut (dbPut store1 (buildMessageKey now npk sid ts direction)
        (.message (mkMessageRecord npk sid message isFromBot ts direction md)))
        (buildHashKey now npk sid ts direction md.eventId)
        (.hash ⟨buildMessageKey now npk sid ts direction, ts⟩)) (buildSessionKey npk sid)
        = some (.session s) := by
      rw [dbGet_dbPut_ne _ _ _ _ (sessionKey_ne_hashKey npk sid now npk sid ts direction md.eventId),
        dbGet_dbPut_ne _ _ _ _ (sessionKey_ne_messageKey npk sid now npk sid ts direction),
        hs]
    unfold updateSessionAfterMessage
    rw [hs3, dbGet_dbPut_self]

/-- The create path of ensureSession. -/
theorem ensureSession_eq_of_none (now : Nat) (rand : String) (store : Store)
    (pk : String) (req : Option String) (mdE : EnsureMeta)
    (hpk : normalizePubkey pk ≠ "")
    (h : dbGet store (buildSessionKey (normalizePubkey pk)
      (resolveSessionId now rand mdE req)) = none) :
    ensureSession now rand store pk req mdE
      = .ok (dbPut store (buildSessionKey (normalizePubkey pk)
               (resolveSessionId now rand mdE req))
               (.session (newSessionRecord now (normalizePubkey pk)
                 (resolveSessionId now rand mdE req) mdE)),
             resolveSessionId now rand mdE req, true) := by
  unfold ensureSession
  rw [if_neg hpk]
  simp only [h]

/-- The update path of ensureSession. -/
theorem ensureSession_eq_of_session (now : Nat) (rand : String) (store : Store)
    (pk : String) (req : Option String) (mdE : EnsureMeta) (s : SessionRecord)
    (hpk : normalizePubkey pk ≠ "")
    (h : dbGet store (buildSessionKey (normalizePubkey pk)
      (resolveSessionId now rand mdE req)) = some (.session s)) :
    ensureSession now rand store pk req mdE
      = .ok (sessionUpdateStep now store (normalizePubkey pk)
               (resolveSessionId now rand mdE req) mdE s,
             resolveSessionId now rand mdE req, false) := by
  unfold ensureSession
  rw [if_neg hpk]
  simp only [h]

/-- When nothing is dirty (origin already set whenever a source is given,
no label, no touch) the session update writes nothing. -/
theorem sessionUpdateStep_clean (now : Nat) (store : Store) (npk sid : String)
    (mdE : EnsureMeta) (s : SessionRecord)
    (h1 : truthyS mdE.source = true → truthyS s.origin = true)
    (h2 : truthyS mdE.label = false) (h3 : mdE.touch = false) :
    sessionUpdateStep now store npk sid mdE s = store := by
  unfold sessionUpdateStep
  cases hsrc : truthyS mdE.source with
  | false => simp [hsrc, h2, h3]
  | true => simp [hsrc, h1 hsrc, h2, h3]

/-- C3 counterexample: saveMessage is not two-keyed and its duplicate
check is not over both keys.  A first eventless save writes the composite
hash key; a second save with a fresh event id but the same
(user, session, timestamp, direction) finds its event-id key absent, so it
returns duplicate=false and silently overwrites the stored message record
even though the composite dedup key exists.  A save carrying an event id
writes only the event-id hash key, never the composite one. -/
theorem C3_counterexample :
    (saveOk c3save1).2.duplicate = false ∧
    dbGet (saveOk c3save1).1 "hash:u:s:000000000000002:user" ≠ none ∧
    (saveOk c3save3).2.duplicate = false ∧
    dbGet (saveOk c3save3).1 "hash:event:e2" ≠ none ∧
    dbGet (saveOk c3save3).1 "hash:u:s:000000000000002:user" = none ∧
    (saveOk c3save2).2.duplicate = false ∧
    dbGet (saveOk c3save2).1 "message:u:s:000000000000002:user"
      ≠ dbGet (saveOk c3save1).1 "message:u:s:000000000000002:user" := by
  refine ⟨by decide, by decide, by decide, by decide, by decide, by decide, by decide⟩

/-- C3 (amended): saveMessage computes a SINGLE dedup hash key — the
event-id key when a truthy event id is given, otherwise the composite
(user, session, padded timestamp, direction) key.  When that one key
already exists the call returns duplicate=true and writes neither the
message record nor a hash pointer (only the session-ensure step may have
touched the Session record); otherwise it writes the message record, that
single hash key, and bumps the Session counters and preview. -/
theorem C3_single_hash_key_dedup (now : Nat) (rand : String) (store : Store)
    (pubkey message : String) (isFromBot : Bool) (md : SaveMeta)
    (hpk : normalizePubkey pubkey ≠ "") :
    ∃ store1 sessionId isNew,
      ensureSession now rand store (normalizePubkey pubkey) md.sessionId
          ⟨derivedSource md, md.sessionLabel, false, none⟩ = .ok (store1, sessionId, isNew) ∧
      ((dbGet store1 (buildHashKey now (normalizePubkey pubkey) sessionId
          (md.timestamp.getD now) (if isFromBot then "bot" else "user")
          md.eventId)).isSome = true →
        saveMessage now rand store pubkey message isFromBot md
          = .ok (store1,
              ⟨saveMessageId (normalizePubkey pubkey) sessionId (md.timestamp.getD now)
                 (if isFromBot then "bot" else "user") md,
               sessionId, md.timestamp.getD now, none, true⟩)) ∧
      (dbGet store1 (buildHashKey now (normalizePubkey pubkey) sessionId
          (md.timestamp.getD now) (if isFromBot then "bot" else "user")
          md.eventId) = none →
        saveMessage now rand store pubkey message isFromBot md
          = .ok (saveWrites now store1 (normalizePubkey pubkey) sessionId message
                   isFromBot (md.timestamp.getD now)
                   (if isFromBot then "bot" else "user") md,
              ⟨saveMessageId (normalizePubkey pubkey) sessionId (md.timestamp.getD now)
                 (if isFromBot then "bot" else "user") md,
               sessionId, md.timestamp.getD now,
               some (buildMessageKey now (normalizePubkey pubkey) sessionId
                 (md.timestamp.getD now) (if isFromBot then "bot" else "user")),
               false⟩) ∧
        dbGet (saveWrites now store1 (normalizePubkey pubkey) sessionId message
            isFromBot (md.timestamp.getD now) (if isFromBot then "bot" else "user") md)
            (buildMessageKey now (normalizePubkey pubkey) sessionId
              (md.timestamp.getD now) (if isFromBot then "bot" else "user"))
          = some (.message (mkMessageRecord (normalizePubkey pubkey) sessionId message
              isFromBot (md.timestamp.getD now) (if isFromBot then "bot" else "user") md)) ∧
        dbGet (saveWrites now store1 (normalizePubkey pubkey) sessionId message
            isFromBot (md.timestamp.getD now) (if isFromBot then "bot" else "user") md)
            (buildHashKey now (normalizePubkey pubkey) sessionId
              (md.timestamp.getD now) (if isFromBot then "bot" else "user") md.eventId)
          = some (.hash ⟨buildMessageKey now (normalizePubkey pubkey) sessionId
              (md.timestamp.getD now) (if isFromBot then "bot" else "user"),
              md.timestamp.getD now⟩) ∧
        (∀ s, dbGet store1 (buildSessionKey (normalizePubkey pubkey) sessionId)
            = some (.session s) →
          dbGet (saveWrites now store1 (normalizePubkey pubkey) sessionId message
              isFromBot (md.timestamp.getD now) (if isFromBot then "bot" else "user") md)
              (buildSessionKey (normalizePubkey pubkey) sessionId)
            = some (.session (bumpSessionRecord s (mkMessageRecord (normalizePubkey pubkey)
                sessionId message isFromBot (md.timestamp.getD now)
                (if isFromBot then "bot" else "user") md))))) := by
  obtain ⟨store1, sid, isNew, heq⟩ :=
    ensureSession_ok now rand store (normalizePubkey pubkey) md.sessionId
      ⟨derivedSource md, md.sessionLabel, false, none⟩
      (by rw [normalizePubkey_idem]; exact hpk)
  refine ⟨store1, sid, isNew, heq, ?_, ?_⟩
  · intro hsome
    obtain ⟨v, hv⟩ := Option.isSome_iff_exists.mp hsome
    unfold saveMessage
    rw [if_neg hpk]
    simp only [heq, hv]
  · intro hnone
    obtain ⟨h1, h2, h3⟩ := saveWrites_spec now store1 (normalizePubkey pubkey) sid message
      isFromBot (md.timestamp.getD now) (if isFromBot then "bot" else "user") md
    refine ⟨?_, h1, h2, h3⟩
    unfold saveMessage
    rw [if_neg hpk]
    simp only [heq, hnone]

/-- C3 witness: the amended saveMessage characterization instantiated at a
concrete eventless save into an empty store. -/
theorem C3_single_hash_key_dedup_witness :
    ∃ store1 sessionId isNew,
      ensureSession 5 "r1" [] (normalizePubkey "u") c3meta1.sessionId
          ⟨derivedSource c3meta1, c3meta1.sessionLabel, false, none⟩ = .ok (store1, sessionId, isNew) ∧
      ((dbGet store1 (buildHashKey 5 (normalizePubkey "u") sessionId
          (c3meta1.timestamp.getD 5) (if false then "bot" else "user")
          c3meta1.eventId)).isSome = true →
        saveMessage 5 "r1" [] "u" "hello" false c3meta1
          = .ok (store1,
              ⟨saveMessageId (normalizePubkey "u") sessionId (c3meta1.timestamp.getD 5)
                 (if false then "bot" else "user") c3meta1,
               sessionId, c3meta1.timestamp.getD 5, none, true⟩)) ∧
      (dbGet store1 (buildHashKey 5 (normalizePubkey "u") sessionId
          (c3meta1.timestamp.getD 5) (if false then "bot" else "user")
          c3meta1.eventId) = none →
        saveMessage 5 "r1" [] "u" "hello" false c3meta1
          = .ok (saveWrites 5 store1 (normalizePubkey "u") sessionId "hello"
                   false (c3meta1.timestamp.getD 5)
                   (if false then "bot" else "user") c3meta1,
              ⟨saveMessageId (normalizePubkey "u") sessionId (c3meta1.timestamp.getD 5)
                 (if false then "bot" else "user") c3meta1,
               sessionId, c3meta1.timestamp.getD 5,
               some (buildMessageKey 5 (normalizePubkey "u") sessionId
                 (c3meta1.timestamp.getD 5) (if false then "bot" else "user")),
               false⟩) ∧
        dbGet (saveWrites 5 store1 (normalizePubkey "u") sessionId "hello"
            false (c3meta1.timestamp.getD 5) (if false then "bot" else "user") c3meta1)
            (buildMessageKey 5 (normalizePubkey "u") sessionId
              (c3meta1.timestamp.getD 5) (if false then "bot" else "user"))
          = some (.message (mkMessageRecord (normalizePubkey "u") sessionId "hello"
              false (c3meta1.timestamp.getD 5) (if false then "bot" else "user") c3meta1)) ∧
        dbGet (saveWrites 5 store1 (normalizePubkey "u") sessionId "hello"
            false (c3meta1.timestamp.getD 5) (if false then "bot" else "user") c3meta1)
            (buildHashKey 5 (normalizePubkey "u") sessionId
              (c3meta1.timestamp.getD 5) (if false then "bot" else "user") c3meta1.eventId)
          = some (.hash ⟨buildMessageKey 5 (normalizePubkey "u") sessionId
              (c3meta1.timestamp.getD 5) (if false then "bot" else "user"),
              c3meta1.timestamp.getD 5⟩) ∧
        (∀ s, dbGet store1 (buildSessionKey (normalizePubkey "u") sessionId)
            = some (.session s) →
          dbGet (saveWrites 5 store1 (normalizePubkey "u") sessionId "hello"
              false (c3meta1.timestamp.getD 5) (if false then "bot" else "user") c3meta1)
              (buildSessionKey (normalizePubkey "u") sessionId)
            = some (.session (bumpSessionRecord s (mkMessageRecord (normalizePubkey "u")
                sessionId "hello" false (c3meta1.timestamp.getD 5)
                (if false then "bot" else "user") c3meta1))))) :=
  C3_single_hash_key_dedup 5 "r1" [] "u" "hello" false c3meta1 (by decide)

/-- The timestamp padding of a positive timestamp does not depend on the
clock fallback. -/
theorem padTimestamp_pos (n1 n2 t : Nat) (h : 0 < t) :
    padTimestamp n1 t = padTimestamp n2 t := by
  simp only [padTimestamp, padTimestampL, if_pos h]

/-- The composite hash key of a positive timestamp does not depend on the
clock fallback. -/
theorem buildHashKey_pos (n1 n2 : Nat) (pk sid : String) (t : Nat) (dir : String)
    (h : 0 < t) :
    buildHashKey n1 pk sid t dir none = buildHashKey n2 pk sid t dir none := by
  simp only [buildHashKey, truthyS, Bool.false_eq_true, if_false,
    padTimestamp_pos n1 n2 t h]

/-- The metadata of an eventless kind-4 question save with explicit
timestamp `ts` and session `sid`. -/
def eventlessMeta (ts : Nat) (sid : String) : SaveMeta :=
  ⟨some ts, some sid, none, some 4, some "question", none, none, none⟩

/-- C9: an eventless save derives both the message id and the dedup hash
key purely from (pubkey, session, timestamp, direction).  Saving a second,
different text for the same user, session, direction and millisecond
timestamp returns duplicate=true and leaves the store exactly as after the
first save: the second message is silently not stored. -/
theorem C9_eventless_composite_dedup (now1 now2 : Nat) (rand1 rand2 : String)
    (store : Store) (pubkey sid msg1 msg2 : String) (isFromBot : Bool) (ts : Nat)
    (hpk : normalizePubkey pubkey ≠ "")
    (hsid : sanitizeSessionId (some sid) ≠ "")
    (hts : 0 < ts)
    (hsk : dbGet store (buildSessionKey (normalizePubkey pubkey)
      (sanitizeSessionId (some sid))) = none)
    (hhk : dbGet store (buildHashKey now1 (normalizePubkey pubkey)
      (sanitizeSessionId (some sid)) ts (if isFromBot then "bot" else "user") none) = none) :
    ∃ st1 r1,
      saveMessage now1 rand1 store pubkey msg1 isFromBot (eventlessMeta ts sid)
        = .ok (st1, r1) ∧
      r1.duplicate = false ∧
      r1.messageId = normalizePubkey pubkey ++ ":" ++ sanitizeSessionId (some sid)
        ++ ":" ++ natRepr ts ++ ":" ++ (if isFromBot then "bot" else "user") ∧
      saveMessage now2 rand2 st1 pubkey msg2 isFromBot (eventlessMeta ts sid)
        = .ok (st1,
            ⟨normalizePubkey pubkey ++ ":" ++ sanitizeSessionId (some sid) ++ ":"
               ++ natRepr ts ++ ":" ++ (if isFromBot then "bot" else "user"),
             sanitizeSessionId (some sid), ts, none, true⟩) := by
  have hpk2 : normalizePubkey (normalizePubkey pubkey) ≠ "" := by
    rw [normalizePubkey_idem]
    exact hpk
  have hmdE : (⟨derivedSource (eventlessMeta ts sid),
      (eventlessMeta ts sid).sessionLabel, false, none⟩ : EnsureMeta)
      = ⟨some "dm", none, false, none⟩ := rfl
  have hres1 : resolveSessionId now1 rand1 ⟨some "dm", none, false, none⟩
      (eventlessMeta ts sid).sessionId = sanitizeSessionId (some sid) := by
    show jsOrS (sanitizeSessionId (some sid)) _ = _
    unfold jsOrS
    rw [if_neg hsid]
  have hres2 : resolveSessionId now2 rand2 ⟨some "dm", none, false, none⟩
      (eventlessMeta ts sid).sessionId = sanitizeSessionId (some sid) := by
    show jsOrS (sanitizeSessionId (some sid)) _ = _
    unfold jsOrS
    rw [if_neg hsid]
  -- first ensureSession: create path
  have hens1 : ensureSession now1 rand1 store (normalizePubkey pubkey)
      (eventlessMeta ts sid).sessionId
      ⟨derivedSource (eventlessMeta ts sid), (eventlessMeta ts sid).sessionLabel,
        false, none⟩
      = .ok (dbPut store (buildSessionKey (normalizePubkey pubkey)
               (sanitizeSessionId (some sid)))
               (.session (newSessionRecord now1 (normalizePubkey pubkey)
                 (sanitizeSessionId (some sid)) ⟨some "dm", none, false, none⟩)),
             sanitizeSessionId (some sid), true) := by
    rw [hmdE]
    have := ensureSession_eq_of_none now1 rand1 store (normalizePubkey pubkey)
      (eventlessMeta ts sid).sessionId ⟨some "dm", none, false, none⟩ hpk2
      (by rw [hres1, normalizePubkey_idem]; exact hsk)
    rw [this, hres1, normalizePubkey_idem]
  -- first saveMessage: fresh write
  have hts_eq : ((eventlessMeta ts sid).timestamp.getD now1) = ts := rfl
  have heid : (eventlessMeta ts sid).eventId = none := rfl
  have hhk1 : dbGet (dbPut store (buildSessionKey (normalizePubkey pubkey)
        (sanitizeSessionId (some sid)))
        (.session (newSessionRecord now1 (normalizePubkey pubkey)
          (sanitizeSessionId (some sid)) ⟨some "dm", none, false, none⟩)))
      (buildHashKey now1 (normalizePubkey pubkey) (sanitizeSessionId (some sid)) ts
        (if isFromBot then "bot" else "user") none) = none := by
    rw [dbGet_dbPut_ne _ _ _ _ (sessionKey_ne_hashKey _ _ now1 _ _ ts _ none).symm]
    exact hhk
  have hsave1 : saveMessage now1 rand1 store pubkey msg1 isFromBot (eventlessMeta ts sid)
      = .ok (saveWrites now1
               (dbPut store (buildSessionKey (normalizePubkey pubkey)
                 (sanitizeSessionId (some sid)))
                 (.session (newSessionRecord now1 (normalizePubkey pubkey)
                   (sanitizeSessionId (some sid)) ⟨some "dm", none, false, none⟩)))
               (normalizePubkey pubkey) (sanitizeSessionId (some sid)) msg1 isFromBot ts
               (if isFromBot then "bot" else "user") (eventlessMeta ts sid),
             ⟨saveMessageId (normalizePubkey pubkey) (sanitizeSessionId (some sid)) ts
                (if isFromBot then "bot" else "user") (eventlessMeta ts sid),
              sanitizeSessionId (some sid), ts,
              some (buildMessageKey now1 (normalizePubkey pubkey)
                (sanitizeSessionId (some sid)) ts (if isFromBot then "bot" else "user")),
              false⟩) := by
    unfold saveMessage
    rw [if_neg hpk]
    simp only [hens1, hts_eq, heid, hhk1]
  refine ⟨_, _, hsave1, rfl, ?_, ?_⟩
  · rfl
  -- second call
  · have hsk1 : dbGet (saveWrites now1
        (dbPut store (buildSessionKey (normalizePubkey pubkey)
          (sanitizeSessionId (some sid)))
          (.session (newSessionRecord now1 (normalizePubkey pubkey)
            (sanitizeSessionId (some sid)) ⟨some "dm", none, false, none⟩)))
        (normalizePubkey pubkey) (sanitizeSessionId (some sid)) msg1 isFromBot ts
        (if isFromBot then "bot" else "user") (eventlessMeta ts sid))
        (buildSessionKey (normalizePubkey pubkey) (sanitizeSessionId (some sid)))
        = some (.session (bumpSessionRecord
            (newSessionRecord now1 (normalizePubkey pubkey)
              (sanitizeSessionId (some sid)) ⟨some "dm", none, false, none⟩)
            (mkMessageRecord (normalizePubkey pubkey) (sanitizeSessionId (some sid))
              msg1 isFromBot ts (if isFromBot then "bot" else "user")
              (eventlessMeta ts sid)))) := by
      exact (saveWrites_spec now1 _ _ _ msg1 isFromBot ts _ _).2.2 _ (dbGet_dbPut_self _ _ _)
    have hens2 : ensureSession now2 rand2 (saveWrites now1
          (dbPut store (buildSessionKey (normalizePubkey pubkey)
            (sanitizeSessionId (some sid)))
            (.session (newSessionRecord now1 (normalizePubkey pubkey)
              (sanitizeSessionId (some sid)) ⟨some "dm", none, false, none⟩)))
          (normalizePubkey pubkey) (sanitizeSessionId (some sid)) msg1 isFromBot ts
          (if isFromBot then "bot" else "user") (eventlessMeta ts sid))
        (normalizePubkey pubkey) (eventlessMeta ts sid).sessionId
        ⟨derivedSource (eventlessMeta ts sid), (eventlessMeta ts sid).sessionLabel,
          false, none⟩
        = .ok (saveWrites now1
            (dbPut store (buildSessionKey (normalizePubkey pubkey)
              (sanitizeSessionId (some sid)))
              (.session (newSessionRecord now1 (normalizePubkey pubkey)
                (sanitizeSessionId (some sid)) ⟨some "dm", none, false, none⟩)))
            (normalizePubkey pubkey) (sanitizeSessionId (some sid)) msg1 isFromBot ts
            (if isFromBot then "bot" else "user") (eventlessMeta ts sid),
           sanitizeSessionId (some sid), false) := by
      rw [hmdE]
      have hstep := ensureSession_eq_of_session now2 rand2
        (saveWrites now1
          (dbPut store (buildSessionKey (normalizePubkey pubkey)
            (sanitizeSessionId (some sid)))
            (.session (newSessionRecord now1 (normalizePubkey pubkey)
              (sanitizeSessionId (some sid)) ⟨some "dm", none, false, none⟩)))
          (normalizePubkey pubkey) (sanitizeSessionId (some sid)) msg1 isFromBot ts
          (if isFromBot then "bot" else "user") (eventlessMeta ts sid))
        (normalizePubkey pubkey) (eventlessMeta ts sid).sessionId
        ⟨some "dm", none, false, none⟩
        (bumpSessionRecord
          (newSessionRecord now1 (normalizePubkey pubkey)
            (sanitizeSessionId (some sid)) ⟨some "dm", none, false, none⟩)
          (mkMessageRecord (normalizePubkey pubkey) (sanitizeSessionId (some sid))
            msg1 isFromBot ts (if isFromBot then "bot" else "user")
            (eventlessMeta ts sid)))
        hpk2 (by rw [hres2, normalizePubkey_idem]; exact hsk1)
      rw [hstep, hres2]
      rw [sessionUpdateStep_clean now2
        (saveWrites now1
          (dbPut store (buildSessionKey (normalizePubkey pubkey)
            (sanitizeSessionId (some sid)))
            (.session (newSessionRecord now1 (normalizePubkey pubkey)
              (sanitizeSessionId (some sid)) ⟨some "dm", none, false, none⟩)))
          (normalizePubkey pubkey) (sanitizeSessionId (some sid)) msg1 isFromBot ts
          (if isFromBot then "bot" else "user") (eventlessMeta ts sid))
        (normalizePubkey (normalizePubkey pubkey)) (sanitizeSessionId (some sid))
        ⟨some "dm", none, false, none⟩
        (bumpSessionRecord
          (newSessionRecord now1 (normalizePubkey pubkey)
            (sanitizeSessionId (some sid)) ⟨some "dm", none, false, none⟩)
          (mkMessageRecord (normalizePubkey pubkey) (sanitizeSessionId (some sid))
            msg1 isFromBot ts (if isFromBot then "bot" else "user")
            (eventlessMeta ts sid)))
        (fun _ => rfl) rfl rfl]
  -- second saveMessage: duplicate
    have hts_eq2 : ((eventlessMeta ts sid).timestamp.getD now2) = ts := rfl
    have hhk2 : dbGet (saveWrites now1
          (dbPut store (buildSessionKey (normalizePubkey pubkey)
            (sanitizeSessionId (some sid)))
            (.session (newSessionRecord now1 (normalizePubkey pubkey)
              (sanitizeSessionId (some sid)) ⟨some "dm", none, false, none⟩)))
          (normalizePubkey pubkey) (sanitizeSessionId (some sid)) msg1 isFromBot ts
          (if isFromBot then "bot" else "user") (eventlessMeta ts sid))
        (buildHashKey now2 (normalizePubkey pubkey) (sanitizeSessionId (some sid)) ts
          (if isFromBot then "bot" else "user") none)
        = some (.hash ⟨buildMessageKey now1 (normalizePubkey pubkey)
            (sanitizeSessionId (some sid)) ts (if isFromBot then "bot" else "user"), ts⟩) := by
      rw [buildHashKey_pos now2 now1 _ _ ts _ hts]
      exact (saveWrites_spec now1 _ _ _ msg1 isFromBot ts _ _).2.1
    unfold saveMessage
    rw [if_neg hpk]
    simp only [hens2, hts_eq2, heid, hhk2]
    rfl

/-- C9 witness: two different texts stored for user "u", session "s",
direction user, timestamp 2; the second save is reported duplicate and the
store is left exactly as after the first save. -/
theorem C9_eventless_composite_dedup_witness :
    ∃ st1 r1,
      saveMessage 5 "r1" [] "u" "hello" false (eventlessMeta 2 "s") = .ok (st1, r1) ∧
      r1.duplicate = false ∧
      r1.messageId = normalizePubkey "u" ++ ":" ++ sanitizeSessionId (some "s")
        ++ ":" ++ natRepr 2 ++ ":" ++ (if false then "bot" else "user") ∧
      saveMessage 9 "r2" st1 "u" "world" false (eventlessMeta 2 "s")
        = .ok (st1,
            ⟨normalizePubkey "u" ++ ":" ++ sanitizeSessionId (some "s") ++ ":"
               ++ natRepr 2 ++ ":" ++ (if false then "bot" else "user"),
             sanitizeSessionId (some "s"), 2, none, true⟩) :=
  C9_eventless_composite_dedup 5 9 "r1" "r2" [] "u" "s" "hello" "world" false 2
    (by decide) (by decide) (by decide) (by decide) (by decide)

/-- Every trace the balance-gate stage emits is charged-before-oracle. -/
theorem processAfterGate_charged (now : Nat) (rand2 ai rid : String) (st : BotState)
    (ev : NostrEvent) (mc : String) (r : SaveResult) (sid1 : Option String) :
    chargedBeforeOracle (if ev.kind = 4 then 20 else 50) ev.pubkey
      (processAfterGate now rand2 ai rid st ev mc r sid1
        [Action.saveMsg ev.pubkey mc false "question"]).2.1 = true := by
  unfold processAfterGate
  simp only [sendActions, procCatch]
  repeat' split
  all_goals simp_all [chargedBeforeOracle]

/-- Every trace the content stage emits is charged-before-oracle. -/
theorem processWithContent_charged (now : Nat) (rand1 rand2 ai rid : String)
    (st : BotState) (ev : NostrEvent) (sid0 : Option String) (mc : String) :
    chargedBeforeOracle (if ev.kind = 4 then 20 else 50) ev.pubkey
      (processWithContent now rand1 rand2 ai rid st ev sid0 mc).2.1 = true := by
  unfold processWithContent
  repeat' split
  all_goals first
    | rfl
    | apply processAfterGate_charged
    | (simp_all [chargedBeforeOracle, procCatch, sendActions]; done)
    | (unfold processAfterGate
       simp only [sendActions, procCatch]
       repeat' split
       all_goals simp_all [chargedBeforeOracle])

/-- A save carrying a fresh, truthy event id succeeds with duplicate=false. -/
theorem saveMessage_fresh_event (now : Nat) (rand : String) (store : Store)
    (pubkey message : String) (isFromBot : Bool) (md : SaveMeta) (eid : String)
    (hpk : normalizePubkey pubkey ≠ "")
    (heid : md.eventId = some eid) (hne : eid ≠ "")
    (hfresh : dbGet store ("hash:event:" ++ eid) = none) :
    ∃ st2 r, saveMessage now rand store pubkey message isFromBot md = .ok (st2, r)
      ∧ r.duplicate = false := by
  unfold saveMessage
  rw [if_neg hpk]
  obtain ⟨store1, sid, isNew, hens⟩ :=
    ensureSession_ok now rand store (normalizePubkey pubkey) md.sessionId
      ⟨derivedSource md, md.sessionLabel, false, none⟩
      (by rw [normalizePubkey_idem]; exact hpk)
  simp only [hens]
  have hbk : buildHashKey now (normalizePubkey pubkey) sid
      (md.timestamp.getD now) (if isFromBot then "bot" else "user") md.eventId
      = "hash:event:" ++ eid := by
    unfold buildHashKey
    rw [heid]
    simp [truthyS, hne]
  have hget : dbGet store1 (buildHashKey now (normalizePubkey pubkey) sid
      (md.timestamp.getD now) (if isFromBot then "bot" else "user") md.eventId)
      = none := by
    rw [ensureSession_writes_only_sk now rand store (normalizePubkey pubkey)
        md.sessionId ⟨derivedSource md, md.sessionLabel, false, none⟩
        store1 sid isNew hens _
        ((sessionKey_ne_hashKey (normalizePubkey (normalizePubkey pubkey)) sid now
          (normalizePubkey pubkey) sid (md.timestamp.getD now)
          (if isFromBot then "bot" else "user") md.eventId).symm),
      hbk]
    exact hfresh
  simp only [hget]
  exact ⟨_, _, rfl, rfl⟩

/-- Below the balance gate, processAfterGate stops normally with only the
user save, the insufficient-balance send and its system save in the
trace: no debit and no oracle call happen. -/
theorem processAfterGate_insufficient (now : Nat) (rand2 ai rid : String)
    (st : BotState) (ev : NostrEvent) (mc : String) (r : SaveResult)
    (sid1 : Option String)
    (hpk : normalizePubkey ev.pubkey ≠ "")
    (hbal : jsLtNat (getBalance st.zap.balances ev.pubkey)
      (if ev.kind = 4 then 20 else 50) = true) :
    (∀ a c, Action.debit a c
      ∉ (processAfterGate now rand2 ai rid st ev mc r sid1
          [Action.saveMsg ev.pubkey mc false "question"]).2.1) ∧
    (∀ m h, Action.oracle m h
      ∉ (processAfterGate now rand2 ai rid st ev mc r sid1
          [Action.saveMsg ev.pubkey mc false "question"]).2.1) ∧
    Action.saveMsg ev.pubkey
        (insufficientBalanceMsg (getBalance st.zap.balances ev.pubkey)
          (if ev.kind = 4 then 20 else 50) ev.kind) true "system"
      ∈ (processAfterGate now rand2 ai rid st ev mc r sid1
          [Action.saveMsg ev.pubkey mc false "question"]).2.1 ∧
    (processAfterGate now rand2 ai rid st ev mc r sid1
        [Action.saveMsg ev.pubkey mc false "question"]).2.2
      = ProcOutcome.done := by
  obtain ⟨st2, r2, hsave⟩ := saveMessage_ok now rand2 st.store ev.pubkey
    (insufficientBalanceMsg (getBalance st.zap.balances ev.pubkey)
      (if ev.kind = 4 then 20 else 50) ev.kind) true (systemSaveMeta ev sid1) hpk
  unfold processAfterGate
  rw [if_pos hbal]
  simp only [hsave]
  refine ⟨?_, ?_, ?_, trivial⟩
  · intro a c
    simp only [sendActions]
    split <;> simp
  · intro m h
    simp only [sendActions]
    split <;> simp
  · simp only [sendActions]
    split <;> simp

/-- C1: Charge-before-generate.  (1) In every trace processMessage can
produce, the AI oracle is invoked only after a successful debit of exactly
the per-kind cost (20 for kind 4, 50 otherwise) against the author.
(2) Whenever a kind-4 or kind-1 message reaches the balance gate (readable
plaintext, non-empty, fresh fingerprint, nonempty pubkey, fresh event id)
with a balance below the cost, the trace contains no debit and no oracle
call, the insufficient-balance reply is persisted as a bot system message,
and processing stops normally (no rethrow, so no queue retry). -/
theorem C1_charge_before_generate (now : Nat) (rand1 rand2 : String)
    (decrypted : Option String) (aiResponse respEventId : String)
    (st : BotState) (ev : NostrEvent) (mc : String) :
    (chargedBeforeOracle (if ev.kind = 4 then 20 else 50) ev.pubkey
      (processMessage now rand1 rand2 decrypted aiResponse respEventId st ev).2.1
      = true) ∧
    ((ev.kind = 4 ∧ decrypted = some mc) ∨ (ev.kind = 1 ∧ mc = ev.content) →
      trimChars mc.data ≠ [] →
      (st.processedMessages.find?
        (fun kv => decide (kv.1 = ev.pubkey ++ ":" ++ mc))).isSome = false →
      normalizePubkey ev.pubkey ≠ "" →
      ev.id ≠ "" →
      dbGet st.store ("hash:event:" ++ ev.id) = none →
      jsLtNat (getBalance st.zap.balances ev.pubkey)
        (if ev.kind = 4 then 20 else 50) = true →
      (∀ a c, Action.debit a c
        ∉ (processMessage now rand1 rand2 decrypted aiResponse respEventId st ev).2.1) ∧
      (∀ m h, Action.oracle m h
        ∉ (processMessage now rand1 rand2 decrypted aiResponse respEventId st ev).2.1) ∧
      Action.saveMsg ev.pubkey
          (insufficientBalanceMsg (getBalance st.zap.balances ev.pubkey)
            (if ev.kind = 4 then 20 else 50) ev.kind) true "system"
        ∈ (processMessage now rand1 rand2 decrypted aiResponse respEventId st ev).2.1 ∧
      (processMessage now rand1 rand2 decrypted aiResponse respEventId st ev).2.2
        = ProcOutcome.done) := by
  constructor
  · unfold processMessage
    repeat' split
    all_goals first
      | rfl
      | (simp_all [chargedBeforeOracle, procCatch, sendActions]; done)
      | apply processWithContent_charged
      | (rw [show (20 : Nat) = if ev.kind = 4 then 20 else 50 by simp_all]
         apply processWithContent_charged)
      | (rw [show (50 : Nat) = if ev.kind = 4 then 20 else 50 by simp_all]
         apply processWithContent_charged)
  · intro hk hne hfp hpk hid hhash hbal
    have key : ∀ mcx : String, trimChars mcx.data ≠ [] →
        (st.processedMessages.find?
          (fun kv => decide (kv.1 = ev.pubkey ++ ":" ++ mcx))).isSome = false →
        (∀ a c, Action.debit a c
          ∉ (processWithContent now rand1 rand2 aiResponse respEventId st ev
              (sessionTagOf ev) mcx).2.1) ∧
        (∀ m h, Action.oracle m h
          ∉ (processWithContent now rand1 rand2 aiResponse respEventId st ev
              (sessionTagOf ev) mcx).2.1) ∧
        Action.saveMsg ev.pubkey
            (insufficientBalanceMsg (getBalance st.zap.balances ev.pubkey)
              (if ev.kind = 4 then 20 else 50) ev.kind) true "system"
          ∈ (processWithContent now rand1 rand2 aiResponse respEventId st ev
              (sessionTagOf ev) mcx).2.1 ∧
        (processWithContent now rand1 rand2 aiResponse respEventId st ev
            (sessionTagOf ev) mcx).2.2 = ProcOutcome.done := by
      intro mcx hnex hfpx
      unfold processWithContent
      rw [if_neg hnex]
      simp only [hfpx, Bool.false_eq_true, if_false]
      obtain ⟨stS, rS, hsave, hdup⟩ := saveMessage_fresh_event now rand1 st.store
        ev.pubkey mcx false (userSaveMeta ev (sessionTagOf ev)) ev.id hpk rfl hid hhash
      simp only [hsave, hdup, Bool.false_eq_true, if_false]
      exact processAfterGate_insufficient now rand2 aiResponse respEventId
        _ ev mcx rS _ hpk hbal
    rcases hk with ⟨hk4, hdec⟩ | ⟨hk1, hmc⟩
    · unfold processMessage
      rw [if_pos hk4]
      simp only [hdec]
      exact key mc hne hfp
    · have h4 : ¬ ev.kind = 4 := by rw [hk1]; decide
      unfold processMessage
      rw [if_neg h4, if_pos hk1]
      subst hmc
      exact key ev.content hne hfp

/-- C1 witness: a concrete kind-4 DM from a user holding 5 sats (below the
20-sat cost) is answered with the insufficient-balance system message, no
debit and no oracle call, and processing ends normally. -/
theorem C1_charge_before_generate_witness :
    ((c1ev.kind = 4 ∧ (some "hi" : Option String) = some "hi") ∨
      (c1ev.kind = 1 ∧ "hi" = c1ev.content)) ∧
    trimChars "hi".data ≠ [] ∧
    (c1st.processedMessages.find?
      (fun kv => decide (kv.1 = c1ev.pubkey ++ ":" ++ "hi"))).isSome = false ∧
    normalizePubkey c1ev.pubkey ≠ "" ∧
    c1ev.id ≠ "" ∧
    dbGet c1st.store ("hash:event:" ++ c1ev.id) = none ∧
    jsLtNat (getBalance c1st.zap.balances c1ev.pubkey)
      (if c1ev.kind = 4 then 20 else 50) = true ∧
    (∀ a c, Action.debit a c
      ∉ (processMessage 1000 "r1" "r2" (some "hi") "ai" "rid" c1st c1ev).2.1) ∧
    (∀ m h, Action.oracle m h
      ∉ (processMessage 1000 "r1" "r2" (some "hi") "ai" "rid" c1st c1ev).2.1) ∧
    Action.saveMsg c1ev.pubkey
        (insufficientBalanceMsg (getBalance c1st.zap.balances c1ev.pubkey)
          (if c1ev.kind = 4 then 20 else 50) c1ev.kind) true "system"
      ∈ (processMessage 1000 "r1" "r2" (some "hi") "ai" "rid" c1st c1ev).2.1 ∧
    (processMessage 1000 "r1" "r2" (some "hi") "ai" "rid" c1st c1ev).2.2
      = ProcOutcome.done := by
  refine ⟨Or.inl ⟨rfl, rfl⟩, by decide, rfl, by decide, by decide, rfl, by decide, ?_⟩
  exact (C1_charge_before_generate 1000 "r1" "r2" (some "hi") "ai" "rid" c1st c1ev "hi").2
    (Or.inl ⟨rfl, rfl⟩) (by decide) rfl (by decide) (by decide) rfl (by decide)

/-- C6: Reconnect ceiling.  Once the subscription loop of a relay URL has
accumulated 5 (maxReconnectAttempts) reconnect attempts with no intervening
event reception, the relay is marked permanently failed and its loop exits
after exactly 6 subscriptions (the initial one plus 5 reconnects), never
subscribing again no matter what would follow; a loop entered for a relay
already marked failed opens no subscription at all; and a cycle that does
receive events resets the counter to 0 and the loop continues. -/
theorem C6_reconnect_ceiling :
    (∀ rest : List Bool,
      listenToRelay ⟨0, false⟩ (List.replicate 6 false ++ rest)
        = (⟨maxReconnectAttempts, true⟩, 6)) ∧
    (∀ (a : Nat) (cycles : List Bool),
      listenToRelay ⟨a, true⟩ cycles = (⟨a, true⟩, 0)) ∧
    (∀ rest : List Bool,
      listenToRelay ⟨0, false⟩ (List.replicate 5 false ++ true :: rest)
        = ((listenToRelay ⟨1, false⟩ rest).1, (listenToRelay ⟨1, false⟩ rest).2 + 6)) := by
  refine ⟨fun rest => rfl, fun a cycles => ?_, fun rest => rfl⟩
  cases cycles <;> rfl

/-- C8: History truncation for the oracle.  The chat history handed to the
AI model by generateRequest is exactly the image of the last
min(length, 40) turns of the conversation history: it never exceeds 40
entries, it is a suffix of the full (mapped) history — so turns older than
the last 40 are never included — and the prompt carries the new message. -/
theorem C8_history_truncation (sys msg : String) (h : List FormattedMessage) :
    (generateRequest sys msg h).history.length ≤ 40 ∧
    (generateRequest sys msg h).history
      = (h.map (fun m => ChatMessage.mk (if m.isFromBot then "model" else "user") m.message)).drop
          (h.length - 40) ∧
    (generateRequest sys msg h).history
      <:+ h.map (fun m => ChatMessage.mk (if m.isFromBot then "model" else "user") m.message) ∧
    (generateRequest sys msg h).prompt = sys ++ "\n\nUser question: " ++ msg := by
  refine ⟨?_, ?_, ?_, rfl⟩
  · show (buildChatHistory h).length ≤ 40
    simp only [buildChatHistory, List.length_map, List.length_drop]
    omega
  · show buildChatHistory h = _
    simp [buildChatHistory, List.map_drop]
  · show buildChatHistory h <:+ _
    simp only [buildChatHistory, List.map_drop]
    exact List.drop_suffix _ _

/-- C7 counterexample: when every relay rejects the publish, sendDM and
sendReply still return normally (Except.ok) with successCount 0 — they do
not signal failure to their caller, so the claim that a zero-accept publish
makes the processing task fail (and the Work Queue retry) is false. -/
theorem C7_counterexample :
    sendDMPublish true true [false, false] = .ok (0, false) ∧
    sendReplyPublish true [false, false, false] = .ok (0, false) := ⟨rfl, rfl⟩

/-- The success counter of the publish loops is positive iff some relay
accepted. -/
theorem filter_true_length_pos (rs : List Bool) :
    (decide (0 < (rs.filter (fun b => b)).length) = true) ↔ true ∈ rs := by
  induction rs with
  | nil => simp
  | cons b rest ih => cases b <;> simp_all

/-- C7 (amended): with encryption and signing available, sendDM and
sendReply always complete normally whatever the per-relay outcomes; the
publish is counted as successful (stats.messagesSent incremented) exactly
when at least one relay accepts; an all-reject publish is only logged and
the caller observes a normal completion, so the Work Queue does not retry. -/
theorem C7_publish_failure_behavior :
    (∀ rs : List Bool, ∃ n inc, sendDMPublish true true rs = .ok (n, inc) ∧
      (inc = true ↔ true ∈ rs)) ∧
    (∀ rs : List Bool, ∃ n inc, sendReplyPublish true rs = .ok (n, inc) ∧
      (inc = true ↔ true ∈ rs)) :=
  ⟨fun rs => ⟨(rs.filter (fun b => b)).length, _, rfl, filter_true_length_pos rs⟩,
   fun rs => ⟨(rs.filter (fun b => b)).length, _, rfl, filter_true_length_pos rs⟩⟩

/-- C2: Dedup by event id with bounded memory.  An event whose id is
already in the processed-event set leaves handleEvent with the state
unchanged and no action (no stats update, no rate-limit check, no enqueue,
no response); otherwise the id is appended and, when the set would exceed
1000 entries, the oldest (first-inserted) entry is dropped, so a set of at
most 1000 ids never grows beyond 1000. -/
theorem C2_dedup_bounded (self : String) (st : BotState) (ev : NostrEvent)
    (rl : RateLimitResult) (queueFull : Bool) (descParse : Option ZapRequest)
    (storageFail : Bool) :
    (ev.id ∈ st.processedEvents →
      handleEvent self st ev rl queueFull descParse storageFail = (st, [])) ∧
    (ev.id ∉ st.processedEvents →
      (handleEvent self st ev rl queueFull descParse storageFail).1.processedEvents
        = (if 1000 < (st.processedEvents ++ [ev.id]).length
           then (st.processedEvents ++ [ev.id]).tail
           else st.processedEvents ++ [ev.id]) ∧
      ev.id ∈ (handleEvent self st ev rl queueFull descParse storageFail).1.processedEvents ∧
      (st.processedEvents.length ≤ 1000 →
        (handleEvent self st ev rl queueFull descParse storageFail).1.processedEvents.length
          ≤ 1000)) := by
  constructor
  · intro hmem
    have hc : st.processedEvents.contains ev.id = true := by
      simpa [List.contains] using hmem
    unfold handleEvent
    rw [hc]
    rfl
  · intro hmem
    have hc : st.processedEvents.contains ev.id = false := by
      simpa [List.contains] using hmem
    have hpe : (handleEvent self st ev rl queueFull descParse storageFail).1.processedEvents
        = (if 1000 < (st.processedEvents ++ [ev.id]).length
           then (st.processedEvents ++ [ev.id]).tail
           else st.processedEvents ++ [ev.id]) := by
      unfold handleEvent
      simp only [hc, Bool.false_eq_true, if_false]
      repeat' split
      all_goals rfl
    refine ⟨hpe, ?_, ?_⟩
    · rw [hpe]
      split
      · rename_i hlen
        cases h : st.processedEvents with
        | nil => rw [h] at hlen; simp at hlen
        | cons a rest => simp [h]
      · simp
    · intro hle
      rw [hpe]
      split
      · rename_i hlen
        cases h : st.processedEvents with
        | nil => rw [h] at hlen; simp at hlen
        | cons a rest =>
          rw [h] at hle
          simp only [List.cons_append, List.tail_cons, List.length_append,
            List.length_cons, List.length_nil]
          simp only [List.length_cons] at hle
          omega
      · rename_i hlen
        simp only [List.length_append, List.length_cons, List.length_nil] at hlen ⊢
        omega

/-- C2 witness: a redelivery of event id "a" is dropped with no state
change and no action; a fresh id "b" is appended to the set. -/
theorem C2_dedup_bounded_witness :
    handleEvent "bot" stWithA evA rlOk false none false = (stWithA, []) ∧
    (handleEvent "bot" stWithA evB rlOk false none false).1.processedEvents = ["a", "b"] := by
  constructor
  · exact (C2_dedup_bounded "bot" stWithA evA rlOk false none false).1 (by decide)
  · have h := ((C2_dedup_bounded "bot" stWithA evB rlOk false none false).2 (by decide)).1
    rw [h]
    rfl

/-- C5: Zap-receipt amount extraction.  The claim (and the spec) say an
unparsable amount is dropped with no credit; the code instead computes
parseInt("abc") = NaN, Math.floor(NaN/1000) = NaN, and NaN compares unequal
to 0 in both zero-guards (the receipt-tag fallback at bot.js line 1510 and
the drop check at line 1524), so the receipt is NOT dropped: saveZap is
invoked and the payer is credited a NaN amount.  (For comparison, the
second conjunct shows the normal path crediting 2500/1000 = 2.) -/
theorem C5_unparsable_amount_credited :
    zapSenderAmount evZapBad (some zapReqBad) = ("payer1", JsNum.nan) ∧
    handleZapReceipt emptyZap evZapBad (some zapReqBad) false
      = (⟨[("payer1", JsNum.nan)], ["zr1"]⟩,
         [.credit "payer1" .nan, .zapAck "payer1" .nan .nan,
          .publishBalance "payer1" .nan]) ∧
    handleZapReceipt emptyZap evZapGood (some zapReqGood) false
      = (⟨[("payer2", JsNum.num 2)], ["zr3"]⟩,
         [.credit "payer2" (.num 2), .zapAck "payer2" (.num 2) (.num 2),
          .publishBalance "payer2" (.num 2)]) := by
  refine ⟨by decide, by decide, by decide⟩

/-- The zap handler body only ever emits credit / acknowledgement /
balance-publish actions. -/
theorem zapBody_not_outbound (z : ZapState) (ev : NostrEvent)
    (descParse : Option ZapRequest) (storageFail : Bool) (st2 : ZapState)
    (acts : List Action)
    (h : handleZapReceiptBody z ev descParse storageFail = .ok (st2, acts)) :
    acts.all (fun a => !isOutbound a) = true := by
  by_cases h0 : (zapSenderAmount ev descParse).2 = JsNum.num 0
  · simp only [handleZapReceiptBody, h0, if_true, Except.ok.injEq, Prod.mk.injEq] at h
    rw [← h.2]
    rfl
  · by_cases hsf : storageFail = true
    · simp only [handleZapReceiptBody, saveZap, if_neg h0, hsf, if_true] at h
      exact absurd h (by simp)
    · by_cases hc : z.appliedReceipts.contains ev.id = true
      · simp only [handleZapReceiptBody, saveZap, if_neg h0, hsf, Bool.false_eq_true,
          if_false, hc, if_true, Except.ok.injEq, Prod.mk.injEq] at h
        rw [← h.2]
        rfl
      · simp only [handleZapReceiptBody, saveZap, if_neg h0, hsf, Bool.false_eq_true,
          if_false, hc, Except.ok.injEq, Prod.mk.injEq] at h
        rw [← h.2]
        rfl

/-- The zap handler (wrapper included) only ever emits credit /
acknowledgement / balance-publish actions. -/
theorem zapHandler_not_outbound (z : ZapState) (ev : NostrEvent)
    (descParse : Option ZapRequest) (storageFail : Bool) :
    (handleZapReceipt z ev descParse storageFail).2.all (fun a => !isOutbound a) = true := by
  unfold handleZapReceipt
  split
  · rename_i r h
    exact zapBody_not_outbound z ev descParse storageFail r.1 r.2 (by rw [h])
  · rfl

/-- C10: handleZapReceipt catches every internal error and never rethrows:
a failing body (storage error), a missing/unparsable description and a zero
amount all leave the ledger untouched; the handler's trace never contains a
DM, a public reply or a work-queue enqueue; and handleEvent routes kind-9735
events straight to the handler, so no receipt ever reaches the work queue. -/
theorem C10_zap_errors_swallowed (st : ZapState) (ev : NostrEvent)
    (descParse : Option ZapRequest) (storageFail : Bool) :
    (∀ e, handleZapReceiptBody st ev descParse storageFail = .error e →
      handleZapReceipt st ev descParse storageFail = (st, [])) ∧
    ((zapSenderAmount ev descParse).2 = .num 0 →
      handleZapReceipt st ev descParse storageFail = (st, [])) ∧
    (storageFail = true →
      handleZapReceipt st ev descParse storageFail = (st, [])) ∧
    ((handleZapReceipt st ev descParse storageFail).2.all (fun a => !isOutbound a) = true) ∧
    (∀ (self : String) (bst : BotState) (rl : RateLimitResult) (qf : Bool),
      ev.kind = 9735 →
      (handleEvent self bst ev rl qf descParse storageFail).2.all
        (fun a => !isOutbound a) = true) := by
  refine ⟨?_, ?_, ?_, zapHandler_not_outbound st ev descParse storageFail, ?_⟩
  · intro e h
    unfold handleZapReceipt
    rw [h]
  · intro h
    unfold handleZapReceipt
    simp only [handleZapReceiptBody, h, if_true]
  · intro h
    subst h
    by_cases h0 : (zapSenderAmount ev descParse).2 = JsNum.num 0
    · unfold handleZapReceipt
      simp only [handleZapReceiptBody, h0, if_true]
    · unfold handleZapReceipt
      simp only [handleZapReceiptBody, saveZap, if_neg h0, if_true]
  · intro self bst rl qf hk
    by_cases hc : bst.processedEvents.contains ev.id = true
    · simp only [handleEvent, hc, if_true]
      rfl
    · by_cases hp : ev.pubkey = self
      · simp only [handleEvent, hc, Bool.false_eq_true, if_false, hp, if_true]
        rfl
      · simp only [handleEvent, hc, Bool.false_eq_true, if_false, hp, hk, if_true,
          List.all_cons]
        rw [zapHandler_not_outbound bst.zap ev descParse storageFail]
        rfl

/-- C10 witness: a receipt without a description tag is consumed with no
state change; a storage failure while applying a well-formed receipt is
swallowed with no credit. -/
theorem C10_zap_errors_swallowed_witness :
    handleZapReceipt emptyZap evZapNoDesc none false = (emptyZap, []) ∧
    handleZapReceipt emptyZap evZapGood (some zapReqGood) true = (emptyZap, []) := by
  constructor
  · exact (C10_zap_errors_swallowed emptyZap evZapNoDesc none false).2.1 (by decide)
  · exact (C10_zap_errors_swallowed emptyZap evZapGood (some zapReqGood) true).2.2.1 rfl

/-! ## Decimal keys order timestamps: digit-string arithmetic -/

theorem digitChar_toNat (d : Nat) (h : d < 10) : (digitChar d).toNat = 48 + d := by
  interval_cases d <;> decide

theorem digitChar_isDigit (d : Nat) (h : d < 10) : isDigitChar (digitChar d) = true := by
  interval_cases d <;> decide

theorem isDigitChar_bounds {c : Char} (h : isDigitChar c = true) :
    48 ≤ c.toNat ∧ c.toNat ≤ 57 := by
  simp only [isDigitChar, Bool.and_eq_true, decide_eq_true_eq] at h
  exact h

theorem digitVal_le_nine {c : Char} (h : isDigitChar c = true) : digitVal c ≤ 9 := by
  have := isDigitChar_bounds h
  unfold digitVal
  omega

theorem valAux_cons (acc : Nat) (c : Char) (r : List Char) :
    valAux acc (c :: r) = valAux (acc * 10 + digitVal c) r := rfl

theorem valAux_append (l1 l2 : List Char) :
    ∀ acc, valAux acc (l1 ++ l2) = valAux (valAux acc l1) l2 := by
  induction l1 with
  | nil => intro acc; rfl
  | cons c r ih =>
    intro acc
    rw [List.cons_append, valAux_cons, ih, valAux_cons]

theorem valAux_nil (acc : Nat) : valAux acc [] = acc := rfl

theorem valAux_ge (l : List Char) : ∀ acc, acc * 10 ^ l.length ≤ valAux acc l := by
  induction l with
  | nil => intro acc; simp [valAux_nil]
  | cons c r ih =>
    intro acc
    calc acc * 10 ^ (c :: r).length
        = (acc * 10) * 10 ^ r.length := by rw [List.length_cons, pow_succ]; ring
      _ ≤ (acc * 10 + digitVal c) * 10 ^ r.length :=
          Nat.mul_le_mul_right _ (Nat.le_add_right _ _)
      _ ≤ valAux (acc * 10 + digitVal c) r := ih _
      _ = valAux acc (c :: r) := (valAux_cons acc c r).symm

theorem valAux_lt : ∀ (l : List Char), (∀ c ∈ l, isDigitChar c = true) →
    ∀ acc, valAux acc l < (acc + 1) * 10 ^ l.length := by
  intro l
  induction l with
  | nil => intro _ acc; simp [valAux_nil]
  | cons c r ih =>
    intro hd acc
    have hc : isDigitChar c = true := hd c (by simp)
    have h9 := digitVal_le_nine hc
    calc valAux acc (c :: r) = valAux (acc * 10 + digitVal c) r := valAux_cons acc c r
      _ < (acc * 10 + digitVal c + 1) * 10 ^ r.length :=
          ih (fun x hx => hd x (by simp [hx])) _
      _ ≤ ((acc + 1) * 10) * 10 ^ r.length := Nat.mul_le_mul_right _ (by omega)
      _ = (acc + 1) * 10 ^ (c :: r).length := by
          rw [List.length_cons, pow_succ]; ring

theorem lexLtB_cons_eq (c d : Char) (r s : List Char) :
    lexLtB (c :: r) (d :: s)
      = if c = d then lexLtB r s else decide (c.toNat < d.toNat) := rfl

theorem valAux_lt_of_lexLtB : ∀ (a b : List Char), a.length = b.length →
    (∀ c ∈ a, isDigitChar c = true) → (∀ c ∈ b, isDigitChar c = true) →
    lexLtB a b = true → ∀ acc, valAux acc a < valAux acc b := by
  intro a
  induction a with
  | nil =>
    intro b hlen _ _ hlex
    cases b with
    | nil => exact absurd hlex (by decide)
    | cons d ds => simp at hlen
  | cons c r ih =>
    intro b hlen ha hb hlex
    cases b with
    | nil => simp at hlen
    | cons d ds =>
      intro acc
      rw [valAux_cons, valAux_cons]
      rw [lexLtB_cons_eq] at hlex
      by_cases hcd : c = d
      · subst hcd
        rw [if_pos rfl] at hlex
        exact ih ds (by simpa using hlen) (fun x hx => ha x (by simp [hx]))
          (fun x hx => hb x (by simp [hx])) hlex _
      · rw [if_neg hcd] at hlex
        have hlt : c.toNat < d.toNat := of_decide_eq_true hlex
        have hbc := isDigitChar_bounds (ha c (by simp))
        have hbd := isDigitChar_bounds (hb d (by simp))
        have hlenr : r.length = ds.length := by simpa using hlen
        calc valAux (acc * 10 + digitVal c) r
            < (acc * 10 + digitVal c + 1) * 10 ^ r.length :=
              valAux_lt r (fun x hx => ha x (by simp [hx])) _
          _ ≤ (acc * 10 + digitVal d) * 10 ^ ds.length := by
              rw [hlenr]
              exact Nat.mul_le_mul_right _ (by unfold digitVal; omega)
          _ ≤ valAux (acc * 10 + digitVal d) ds := valAux_ge ds _

theorem digitsAux_succ_eq (fuel n : Nat) :
    digitsAux (fuel + 1) n = if n < 10 then [digitChar n]
      else digitsAux fuel (n / 10) ++ [digitChar (n % 10)] := rfl

theorem digitsAux_all_digits : ∀ fuel n, n < fuel →
    ∀ c ∈ digitsAux fuel n, isDigitChar c = true := by
  intro fuel
  induction fuel with
  | zero => intro n h; omega
  | succ fuel ih =>
    intro n hn c hc
    rw [digitsAux_succ_eq] at hc
    by_cases h10 : n < 10
    · rw [if_pos h10] at hc
      simp only [List.mem_singleton] at hc
      subst hc
      exact digitChar_isDigit n h10
    · rw [if_neg h10] at hc
      simp only [List.mem_append, List.mem_singleton] at hc
      rcases hc with hc | hc
      · have hdiv : n / 10 < fuel := by
          have := Nat.div_lt_self (show 0 < n by omega) (show 1 < 10 by omega)
          omega
        exact ih (n / 10) hdiv c hc
      · subst hc
        exact digitChar_isDigit (n % 10) (Nat.mod_lt n (by omega))

theorem digitsAux_length_le : ∀ fuel n k, n < fuel → n < 10 ^ k → 1 ≤ k →
    (digitsAux fuel n).length ≤ k := by
  intro fuel
  induction fuel with
  | zero => intro n k h; omega
  | succ fuel ih =>
    intro n k hn hk h1
    rw [digitsAux_succ_eq]
    by_cases h10 : n < 10
    · rw [if_pos h10]
      simpa using h1
    · rw [if_neg h10]
      rw [List.length_append, List.length_singleton]
      have hk2 : 2 ≤ k := by
        by_contra hcon
        have hk1 : k = 1 := by omega
        subst hk1
        simp [pow_one] at hk
        omega
      have hpow : 10 ^ (k - 1) * 10 = 10 ^ k := by
        rw [← pow_succ]
        congr 1
        omega
      have hdiv : n / 10 < 10 ^ (k - 1) := by
        apply Nat.div_lt_of_lt_mul
        omega
      have hfu : n / 10 < fuel := by
        have := Nat.div_lt_self (show 0 < n by omega) (show 1 < 10 by omega)
        omega
      have := ih (n / 10) (k - 1) hfu hdiv (by omega)
      omega

theorem valAux_digitsAux : ∀ fuel n, n < fuel →
    ∀ acc, valAux acc (digitsAux fuel n)
      = acc * 10 ^ (digitsAux fuel n).length + n := by
  intro fuel
  induction fuel with
  | zero => intro n h; omega
  | succ fuel ih =>
    intro n hn acc
    rw [digitsAux_succ_eq]
    by_cases h10 : n < 10
    · rw [if_pos h10, valAux_cons, valAux_nil]
      have hdc : digitVal (digitChar n) = n := by
        unfold digitVal
        rw [digitChar_toNat n h10]
        omega
      rw [hdc]
      simp
    · rw [if_neg h10, valAux_append, valAux_cons, valAux_nil]
      have hfu : n / 10 < fuel := by
        have := Nat.div_lt_self (show 0 < n by omega) (show 1 < 10 by omega)
        omega
      rw [ih (n / 10) hfu acc]
      have hm : digitVal (digitChar (n % 10)) = n % 10 := by
        unfold digitVal
        rw [digitChar_toNat (n % 10) (Nat.mod_lt n (by omega))]
        omega
      rw [hm, List.length_append, List.length_singleton, pow_succ, ← Nat.mul_assoc]
      generalize acc * 10 ^ (digitsAux fuel (n / 10)).length = X
      omega

theorem natDigits_val (n : Nat) : valL (natDigits n) = n := by
  unfold valL natDigits
  rw [valAux_digitsAux (n + 1) n (Nat.lt_succ_self n) 0]
  simp

theorem natDigits_all_digits (n : Nat) : ∀ c ∈ natDigits n, isDigitChar c = true :=
  digitsAux_all_digits (n + 1) n (Nat.lt_succ_self n)

theorem natDigits_length_le (n k : Nat) (hk : n < 10 ^ k) (h1 : 1 ≤ k) :
    (natDigits n).length ≤ k :=
  digitsAux_length_le (n + 1) n k (Nat.lt_succ_self n) hk h1

theorem padTimestampL_eq (t : Nat) (h0 : 0 < t) :
    padTimestampL 0 t
      = List.replicate (15 - (natDigits t).length) '0' ++ natDigits t := by
  unfold padTimestampL
  simp [h0]

theorem padTimestampL_length (t : Nat) (h0 : 0 < t) (h15 : t < 10 ^ 15) :
    (padTimestampL 0 t).length = 15 := by
  rw [padTimestampL_eq t h0, List.length_append, List.length_replicate]
  have := natDigits_length_le t 15 h15 (by omega)
  omega

theorem padTimestampL_digits (t : Nat) (h0 : 0 < t) :
    ∀ c ∈ padTimestampL 0 t, isDigitChar c = true := by
  rw [padTimestampL_eq t h0]
  intro c hc
  rcases List.mem_append.mp hc with hc | hc
  · rw [List.eq_of_mem_replicate hc]
    decide
  · exact natDigits_all_digits t c hc

theorem valAux_zeros : ∀ k, valAux 0 (List.replicate k (Char.ofNat 48)) = 0 := by
  intro k
  induction k with
  | zero => rfl
  | succ k ih =>
    rw [List.replicate_succ, valAux_cons]
    have hz : 0 * 10 + digitVal (Char.ofNat 48) = 0 := by decide
    rw [hz]
    exact ih

theorem padTimestampL_val (t : Nat) (h0 : 0 < t) : valL (padTimestampL 0 t) = t := by
  rw [padTimestampL_eq t h0]
  unfold valL
  rw [show ('0' : Char) = Char.ofNat 48 from rfl, valAux_append, valAux_zeros]
  exact natDigits_val t

theorem lexLtB_append_same : ∀ (p a b : List Char),
    lexLtB (p ++ a) (p ++ b) = lexLtB a b := by
  intro p
  induction p with
  | nil => intro a b; rfl
  | cons c r ih =>
    intro a b
    rw [List.cons_append, List.cons_append, lexLtB_cons_eq, if_pos rfl]
    exact ih a b

theorem lexLtB_eq_or_lt : ∀ (a b r1 r2 : List Char), a.length = b.length →
    lexLtB (a ++ r1) (b ++ r2) = true → a = b ∨ lexLtB a b = true := by
  intro a
  induction a with
  | nil =>
    intro b r1 r2 hlen _
    cases b with
    | nil => exact Or.inl rfl
    | cons d ds => simp at hlen
  | cons c cs ih =>
    intro b r1 r2 hlen h
    cases b with
    | nil => simp at hlen
    | cons d ds =>
      rw [List.cons_append, List.cons_append, lexLtB_cons_eq] at h
      by_cases hcd : c = d
      · subst hcd
        rw [if_pos rfl] at h
        rcases ih ds r1 r2 (by simpa using hlen) h with heq | hlt
        · exact Or.inl (by rw [heq])
        · right
          rw [lexLtB_cons_eq, if_pos rfl]
          exact hlt
      · rw [if_neg hcd] at h
        right
        rw [lexLtB_cons_eq, if_neg hcd]
        exact h

/-- Byte order of two message keys sharing the stem P is timestamp order:
the 15-digit zero padding makes the numeric order and the lexicographic
order of the key segments agree. -/
theorem ts_le_of_key_lt (P : String) (t1 t2 : Nat) (d1 d2 : String)
    (h01 : 0 < t1) (h151 : t1 < 10 ^ 15) (h02 : 0 < t2) (h152 : t2 < 10 ^ 15)
    (h : strLtB (P ++ padTimestamp 0 t1 ++ d1) (P ++ padTimestamp 0 t2 ++ d2)
      = true) :
    t1 ≤ t2 := by
  unfold strLtB at h
  have hpd1 : (padTimestamp 0 t1).data = padTimestampL 0 t1 := rfl
  have hpd2 : (padTimestamp 0 t2).data = padTimestampL 0 t2 := rfl
  rw [String.data_append, String.data_append, String.data_append,
    String.data_append, hpd1, hpd2, List.append_assoc, List.append_assoc,
    lexLtB_append_same] at h
  have hlen : (padTimestampL 0 t1).length = (padTimestampL 0 t2).length := by
    rw [padTimestampL_length t1 h01 h151, padTimestampL_length t2 h02 h152]
  rcases lexLtB_eq_or_lt _ _ _ _ hlen h with heq | hlt
  · have hv := padTimestampL_val t1 h01
    rw [heq, padTimestampL_val t2 h02] at hv
    omega
  · have hv := valAux_lt_of_lexLtB _ _ hlen (padTimestampL_digits t1 h01)
      (padTimestampL_digits t2 h02) hlt 0
    have hv1 := padTimestampL_val t1 h01
    have hv2 := padTimestampL_val t2 h02
    unfold valL at hv1 hv2
    omega

theorem collectHistory_nil (limit cnt : Nat) : collectHistory limit cnt [] = [] := rfl

theorem collectHistory_cons_msg (limit cnt : Nat) (k : String) (m : MessageRecord)
    (rest : List (String × DbValue)) :
    collectHistory limit cnt ((k, DbValue.message m) :: rest)
      = if m.message ≠ "" then
          if limit ≤ cnt + 1 then [formatMessage m]
          else formatMessage m :: collectHistory limit (cnt + 1) rest
        else collectHistory limit cnt rest := rfl

theorem collectHistory_cons_session (limit cnt : Nat) (k : String)
    (sr : SessionRecord) (rest : List (String × DbValue)) :
    collectHistory limit cnt ((k, DbValue.session sr) :: rest)
      = collectHistory limit cnt rest := rfl

theorem collectHistory_cons_hash (limit cnt : Nat) (k : String)
    (hp : HashPointer) (rest : List (String × DbValue)) :
    collectHistory limit cnt ((k, DbValue.hash hp) :: rest)
      = collectHistory limit cnt rest := rfl

/-- Everything collectHistory returns is the formatting of a message
record among the scanned entries. -/
theorem collectHistory_mem (limit : Nat) : ∀ (l : List (String × DbValue))
    (cnt : Nat) (f : FormattedMessage), f ∈ collectHistory limit cnt l →
    ∃ kv ∈ l, ∃ m, kv.2 = DbValue.message m ∧ f = formatMessage m := by
  intro l
  induction l with
  | nil =>
    intro cnt f hf
    rw [collectHistory_nil] at hf
    simp at hf
  | cons e rest ih =>
    intro cnt f hf
    obtain ⟨k, v⟩ := e
    cases v with
    | message m =>
      rw [collectHistory_cons_msg] at hf
      by_cases hm : m.message ≠ ""
      · rw [if_pos hm] at hf
        by_cases hl : limit ≤ cnt + 1
        · rw [if_pos hl] at hf
          simp only [List.mem_singleton] at hf
          exact ⟨(k, .message m), by simp, m, rfl, hf⟩
        · rw [if_neg hl] at hf
          rcases List.mem_cons.mp hf with hf | hf
          · exact ⟨(k, .message m), by simp, m, rfl, hf⟩
          · obtain ⟨kv, hkv, m2, hm2, hfm⟩ := ih (cnt + 1) f hf
            exact ⟨kv, by simp [hkv], m2, hm2, hfm⟩
      · rw [if_neg hm] at hf
        obtain ⟨kv, hkv, m2, hm2, hfm⟩ := ih cnt f hf
        exact ⟨kv, by simp [hkv], m2, hm2, hfm⟩
    | session sr =>
      rw [collectHistory_cons_session] at hf
      obtain ⟨kv, hkv, m2, hm2, hfm⟩ := ih cnt f hf
      exact ⟨kv, by simp [hkv], m2, hm2, hfm⟩
    | hash hp =>
      rw [collectHistory_cons_hash] at hf
      obtain ⟨kv, hkv, m2, hm2, hfm⟩ := ih cnt f hf
      exact ⟨kv, by simp [hkv], m2, hm2, hfm⟩

/-- collectHistory preserves pairwise timestamp descent of the scanned
entries into its output. -/
theorem collectHistory_pairwise (limit : Nat) :
    ∀ (l : List (String × DbValue)) (cnt : Nat),
    List.Pairwise (fun e e2 => ∀ m m2, e.2 = DbValue.message m →
      e2.2 = DbValue.message m2 → m2.timestamp ≤ m.timestamp) l →
    List.Pairwise (fun f g => g.timestamp ≤ f.timestamp)
      (collectHistory limit cnt l) := by
  intro l
  induction l with
  | nil =>
    intro cnt _
    rw [collectHistory_nil]
    exact List.Pairwise.nil
  | cons e rest ih =>
    intro cnt hp
    rw [List.pairwise_cons] at hp
    obtain ⟨h1, h2⟩ := hp
    obtain ⟨k, v⟩ := e
    cases v with
    | message m =>
      rw [collectHistory_cons_msg]
      by_cases hm : m.message ≠ ""
      · rw [if_pos hm]
        by_cases hl : limit ≤ cnt + 1
        · rw [if_pos hl]
          simp
        · rw [if_neg hl]
          rw [List.pairwise_cons]
          refine ⟨?_, ih (cnt + 1) h2⟩
          intro g hg
          obtain ⟨kv, hkv, m2, hm2, hfm⟩ := collectHistory_mem limit rest (cnt + 1) g hg
          have hle := h1 kv hkv m m2 rfl hm2
          rw [hfm]
          exact hle
      · rw [if_neg hm]
        exact ih cnt h2
    | session sr =>
      rw [collectHistory_cons_session]
      exact ih cnt h2
    | hash hp2 =>
      rw [collectHistory_cons_hash]
      exact ih cnt h2

theorem wfRangeEntry_msg (P k : String) (m : MessageRecord) :
    wfRangeEntry P (k, DbValue.message m)
      = (decide (0 < m.timestamp) && decide (m.timestamp < 10 ^ 15) &&
          (decide (k = P ++ padTimestamp 0 m.timestamp ++ ":user")
            || decide (k = P ++ padTimestamp 0 m.timestamp ++ ":bot"))) := rfl

/-- The reverse range scan over a sorted keyspace whose in-range entries
are all well formed for the stem P, followed by the reverse of the
collected output, is sorted by non-decreasing timestamp. -/
theorem rangeScan_sorted (store : Store) (P lo hi : String) (limit : Nat)
    (hsort : List.Pairwise (fun a b => strLtB a.1 b.1 = true) store)
    (hwf : ∀ kv ∈ store, (!strLtB kv.1 lo && strLtB kv.1 hi) = true →
      wfRangeEntry P kv = true) :
    List.Pairwise (fun f g => f.timestamp ≤ g.timestamp)
      ((collectHistory limit 0 (rangeEntries store lo hi).reverse).reverse) := by
  rw [List.pairwise_reverse]
  apply collectHistory_pairwise
  rw [List.pairwise_reverse]
  have hp : List.Pairwise (fun a b => strLtB a.1 b.1 = true)
      (rangeEntries store lo hi) := List.Pairwise.filter _ hsort
  refine hp.imp_of_mem ?_
  intro a b ha hb hab m m2 hbm ham
  have ha2 := List.mem_filter.mp ha
  have hb2 := List.mem_filter.mp hb
  have hwa := hwf a ha2.1 ha2.2
  have hwb := hwf b hb2.1 hb2.2
  obtain ⟨ka, va⟩ := a
  obtain ⟨kb, vb⟩ := b
  simp only at ham hbm
  subst ham
  subst hbm
  rw [wfRangeEntry_msg] at hwa hwb
  simp only [Bool.and_eq_true, Bool.or_eq_true, decide_eq_true_eq] at hwa hwb
  obtain ⟨⟨h0a, h15a⟩, hka⟩ := hwa
  obtain ⟨⟨h0b, h15b⟩, hkb⟩ := hwb
  simp only at hab
  rcases hka with hka | hka <;> rcases hkb with hkb | hkb <;>
    (rw [hka, hkb] at hab; exact ts_le_of_key_lt P m2.timestamp m.timestamp _ _
      h0a h15a h0b h15b hab)

theorem storeSortedB_pairwise : ∀ s : Store, storeSortedB s = true →
    List.Pairwise (fun a b => strLtB a.1 b.1 = true) s := by
  intro s
  induction s with
  | nil => intro _; exact List.Pairwise.nil
  | cons kv rest ih =>
    intro h
    rw [show storeSortedB (kv :: rest)
        = (rest.all (fun kv2 => strLtB kv.1 kv2.1) && storeSortedB rest) from rfl,
      Bool.and_eq_true] at h
    rw [List.pairwise_cons]
    exact ⟨fun b hb => List.all_eq_true.mp h.1 b hb, ih h.2⟩

theorem getConversationBySession_eq (store : Store) (pubkey sessionId : String)
    (limit : Nat) (hnpk : normalizePubkey pubkey ≠ "")
    (hsid : sanitizeSessionId (some sessionId) ≠ "") :
    getConversationBySession store pubkey sessionId limit
      = (collectHistory limit 0
          (rangeEntries store
            ("message:" ++ normalizePubkey pubkey ++ ":"
              ++ sanitizeSessionId (some sessionId) ++ ":")
            (rangeEnd ("message:" ++ normalizePubkey pubkey ++ ":"
              ++ sanitizeSessionId (some sessionId) ++ ":"))).reverse).reverse := by
  simp only [getConversationBySession]
  rw [if_neg hnpk, if_neg hsid]

theorem getConversation_eq (store : Store) (pubkey : String) (limit : Nat)
    (hnpk : normalizePubkey pubkey ≠ "") :
    getConversation store pubkey limit
      = (collectHistory limit 0
          (rangeEntries store ("message:" ++ normalizePubkey pubkey ++ ":")
            (rangeEnd ("message:" ++ normalizePubkey pubkey ++ ":"))).reverse).reverse := by
  simp only [getConversation]
  rw [if_neg hnpk]

theorem getConversationBySession_empty (store : Store) (pubkey sessionId : String)
    (limit : Nat)
    (h : normalizePubkey pubkey = "" ∨ sanitizeSessionId (some sessionId) = "") :
    getConversationBySession store pubkey sessionId limit = [] := by
  simp only [getConversationBySession]
  rcases h with h | h
  · rw [if_pos h]
  · by_cases hnpk : normalizePubkey pubkey = ""
    · rw [if_pos hnpk]
    · rw [if_neg hnpk, if_pos h]

theorem getConversation_empty (store : Store) (pubkey : String) (limit : Nat)
    (h : normalizePubkey pubkey = "") :
    getConversation store pubkey limit = [] := by
  simp only [getConversation]
  rw [if_pos h]

/-- C4: History ordering — corrected.  Over a byte-sorted keyspace whose
in-range entries are well-formed message records of the queried user and
session (key = stem + 15-digit zero-padded timestamp + direction, with a
faithful positive timestamp below 10^15 — the shape saveWrites produces),
getConversationBySession returns messages in non-decreasing timestamp
order; and getConversation (history_by_user) is likewise sorted when all
of the scanned records of the user belong to the one session sessionId.
Across several sessions the by-user output is ordered by
(session, timestamp) key order, not chronologically: see the
counterexample. -/
theorem C4_history_ordering (store : Store) (pubkey sessionId : String)
    (limit : Nat) (hsort : storeSortedB store = true) :
    ((store.all (fun kv =>
        !(!strLtB kv.1 ("message:" ++ normalizePubkey pubkey ++ ":"
              ++ sanitizeSessionId (some sessionId) ++ ":")
            && strLtB kv.1 (rangeEnd ("message:" ++ normalizePubkey pubkey ++ ":"
              ++ sanitizeSessionId (some sessionId) ++ ":")))
          || wfRangeEntry ("message:" ++ normalizePubkey pubkey ++ ":"
              ++ sanitizeSessionId (some sessionId) ++ ":") kv)) = true →
      List.Pairwise (fun f g => f.timestamp ≤ g.timestamp)
        (getConversationBySession store pubkey sessionId limit)) ∧
    ((store.all (fun kv =>
        !(!strLtB kv.1 ("message:" ++ normalizePubkey pubkey ++ ":")
            && strLtB kv.1 (rangeEnd ("message:" ++ normalizePubkey pubkey ++ ":")))
          || wfRangeEntry ("message:" ++ normalizePubkey pubkey ++ ":"
              ++ sessionId ++ ":") kv)) = true →
      List.Pairwise (fun f g => f.timestamp ≤ g.timestamp)
        (getConversation store pubkey limit)) := by
  have hsp := storeSortedB_pairwise store hsort
  constructor
  · intro hwf
    by_cases hnpk : normalizePubkey pubkey = ""
    · rw [getConversationBySession_empty store pubkey sessionId limit (Or.inl hnpk)]
      exact List.Pairwise.nil
    · by_cases hsid : sanitizeSessionId (some sessionId) = ""
      · rw [getConversationBySession_empty store pubkey sessionId limit (Or.inr hsid)]
        exact List.Pairwise.nil
      · rw [getConversationBySession_eq store pubkey sessionId limit hnpk hsid]
        apply rangeScan_sorted store ("message:" ++ normalizePubkey pubkey ++ ":"
          ++ sanitizeSessionId (some sessionId) ++ ":") _ _ limit hsp
        intro kv hkv hr
        have hall := List.all_eq_true.mp hwf kv hkv
        rw [hr] at hall
        simpa using hall
  · intro hwf
    by_cases hnpk : normalizePubkey pubkey = ""
    · rw [getConversation_empty store pubkey limit hnpk]
      exact List.Pairwise.nil
    · rw [getConversation_eq store pubkey limit hnpk]
      apply rangeScan_sorted store ("message:" ++ normalizePubkey pubkey ++ ":"
        ++ sessionId ++ ":") _ _ limit hsp
      intro kv hkv hr
      have hall := List.all_eq_true.mp hwf kv hkv
      rw [hr] at hall
      simpa using hall

/-- C4 witness: a store holding the two messages of user u in the single
session s (timestamps 1000 and 2000) satisfies the sortedness and
well-formedness hypotheses, and both histories come back sorted. -/
theorem C4_history_ordering_witness :
    storeSortedB c4wstore = true ∧
    (c4wstore.all (fun kv =>
        !(!strLtB kv.1 ("message:" ++ normalizePubkey "u" ++ ":"
              ++ sanitizeSessionId (some "s") ++ ":")
            && strLtB kv.1 (rangeEnd ("message:" ++ normalizePubkey "u" ++ ":"
              ++ sanitizeSessionId (some "s") ++ ":")))
          || wfRangeEntry ("message:" ++ normalizePubkey "u" ++ ":"
              ++ sanitizeSessionId (some "s") ++ ":") kv)) = true ∧
    (c4wstore.all (fun kv =>
        !(!strLtB kv.1 ("message:" ++ normalizePubkey "u" ++ ":")
            && strLtB kv.1 (rangeEnd ("message:" ++ normalizePubkey "u" ++ ":")))
          || wfRangeEntry ("message:" ++ normalizePubkey "u" ++ ":"
              ++ "s" ++ ":") kv)) = true ∧
    List.Pairwise (fun f g => f.timestamp ≤ g.timestamp)
      (getConversationBySession c4wstore "u" "s" 50) ∧
    List.Pairwise (fun f g => f.timestamp ≤ g.timestamp)
      (getConversation c4wstore "u" 50) := by
  refine ⟨by decide, by decide, by decide, ?_, ?_⟩
  · exact (C4_history_ordering c4wstore "u" "s" 50 (by decide)).1 (by decide)
  · exact (C4_history_ordering c4wstore "u" "s" 50 (by decide)).2 (by decide)

/-- C4 counterexample: with messages in two sessions (a at timestamp 2000,
b at timestamp 1000) the by-user history comes back in session order —
timestamps [2000, 1000] — which is not chronological, while each
by-session history is sorted; the store itself is byte-sorted. -/
theorem C4_counterexample :
    storeSortedB c4store = true ∧
    (getConversation c4store "u" 50).map (fun f => f.timestamp) = [2000, 1000] ∧
    ¬ List.Pairwise (fun f g => f.timestamp ≤ g.timestamp)
        (getConversation c4store "u" 50) ∧
    (getConversationBySession c4store "u" "a" 50).map (fun f => f.timestamp)
      = [2000] ∧
    (getConversationBySession c4store "u" "b" 50).map (fun f => f.timestamp)
      = [1000] := by
  refine ⟨by decide, by decide, ?_, by decide, by decide⟩
  intro hp
  have hmap : List.Pairwise (fun a b => a ≤ b)
      ((getConversation c4store "u" 50).map (fun f => f.timestamp)) :=
    hp.map _ (fun a b h => h)
  rw [show (getConversation c4store "u" 50).map (fun f => f.timestamp)
    = [2000, 1000] from by decide] at hmap
  rw [List.pairwise_cons] at hmap
  have := hmap.1 1000 (by simp)
  omega

end ZapAI
